import Mathlib

/-!
Verification development for the panzer Binance client core.

The definitions below are a shallow embedding of the Python sources under
`src/panzer/` (limits.py, signatures.py, request.py, keys.py).  Python
integers are modelled as `Int` (or `Nat` for byte values), Python dicts
keyed by bucket index as insertion-ordered association lists with
`dget`/`dset` mirroring `dict.get(k, 0)` / `dict.update`, and a method's
reads of the wall clock during one call as a single instant `t` (local
milliseconds).  Functions of the module `panzer.time`, which is not among
the source files, are modelled from the spec and say so in their doc
comments.  Logging is side-effect free and is not modelled.
-/

namespace Panzer

/-! ## Python dict helpers -/

/-- Python `d.get(k, 0)` on an insertion-ordered association list. -/
def dget (d : List (Int × Int)) (k : Int) : Int :=
  match d.find? (fun kv => kv.1 == k) with
  | some kv => kv.2
  | none => 0

/-- Python `d.update({k: v})`: replace the value of an existing key in place,
else append the new pair at the end. -/
def dset : List (Int × Int) → Int → Int → List (Int × Int)
  | [], k, v => [(k, v)]
  | kv :: rest, k, v => if kv.1 == k then (k, v) :: rest else kv :: dset rest k v

/-! ## Time bucketing (panzer.time) -/

/-- Modelled from the spec: `panzer.time.second` is not among the source
files; §4.3 gives `second = tMs/1000` (Python floor division). -/
def second (time_milliseconds : Int) : Int := time_milliseconds / 1000

/-- Modelled from the spec: `panzer.time.ten_seconds`, `tenSeconds = tMs/10000`. -/
def ten_seconds (time_milliseconds : Int) : Int := time_milliseconds / 10000

/-- Modelled from the spec: `panzer.time.minute`, `minute = tMs/60000`. -/
def minute (time_milliseconds : Int) : Int := time_milliseconds / 60000

/-- Modelled from the spec: `panzer.time.hour`, `hour = tMs/3600000`. -/
def hour (time_milliseconds : Int) : Int := time_milliseconds / 3600000

/-- Modelled from the spec: `panzer.time.day`, `day = tMs/86400000`. -/
def day (time_milliseconds : Int) : Int := time_milliseconds / 86400000

/-- Modelled from the spec: `panzer.time.update_server_time_offset` is not
among the source files; §4.4 gives `offset = serverMs − localMs` for the
server time fetched from the exchange. -/
def server_offset_refresh (server_ms local_ms : Int) : Int := server_ms - local_ms

/-! ## BinanceRateLimiter state (limits.py, class BinanceRateLimiter) -/

/-- Mutable state of `BinanceRateLimiter` (limits.py lines 321-361). -/
structure RL where
  server_time_offset : Int
  rate_limit_per_day : Int
  rate_limit_per_minute : Int
  rate_limit_per_second : Int
  orders_limit_per_ten_seconds : Int
  weight_limit_per_minute : Int
  minutes_weights : List (Int × Int)
  seconds_counts : List (Int × Int)
  ten_seconds_orders_counts : List (Int × Int)
  minutes_counts : List (Int × Int)
  days_counts : List (Int × Int)
  clean_period_minutes : Int
  minute_for_clean : Int
  hour_for_clean : Int
deriving Repr, DecidableEq

/-- Current second bucket: `second(int(time()*1000) + self.server_time_offset)`. -/
def _get_current_second (s : RL) (t : Int) : Int := second (t + s.server_time_offset)

/-- Current ten-seconds bucket, offset corrected. -/
def _get_current_ten_seconds (s : RL) (t : Int) : Int := ten_seconds (t + s.server_time_offset)

/-- Current minute bucket, offset corrected. -/
def _get_current_minute (s : RL) (t : Int) : Int := minute (t + s.server_time_offset)

/-- Current hour bucket, offset corrected. -/
def _get_current_hour (s : RL) (t : Int) : Int := hour (t + s.server_time_offset)

/-- Current day bucket, offset corrected. -/
def _get_current_day (s : RL) (t : Int) : Int := day (t + s.server_time_offset)

/-- In Python 3 `self.minutes_weights.keys()[:-3]` (limits.py line 442) raises
`TypeError: 'dict_keys' object is not subscriptable` before any counter map is
rebuilt, so `_clean_counters` never returns: `none` models the raised error. -/
def clean_counters (_ : RL) : Option RL := none

/-- Outcome of `can_make_request`: a returned bool, or the `TypeError`
propagating out of `_clean_counters`. -/
inductive CMOutcome where
  | ok : Bool → CMOutcome
  | typeError : CMOutcome
deriving Repr, DecidableEq

/-- Embedding of `BinanceRateLimiter.can_make_request` (limits.py lines
458-511).  All five `current_*` bucket values and counter reads happen before
the first update, as in the source.  Each check that fails returns `False`
with the updates made so far kept (the source mutates `self` in place); the
housekeeping branch updates the two watermarks and then calls
`_clean_counters`, whose `TypeError` makes the lines after it (the offset
refresh and `return True`) unreachable. -/
def can_make_request (s : RL) (weight : Int) (is_order : Bool) (t : Int) : CMOutcome × RL :=
  let current_second := _get_current_second s t
  let current_ten_seconds := _get_current_ten_seconds s t
  let current_minute := _get_current_minute s t
  let current_hour := _get_current_hour s t
  let current_day := _get_current_day s t
  let current_minute_weight := dget s.minutes_weights current_minute
  let current_second_count := dget s.seconds_counts current_second
  let current_ten_seconds_orders_counts := dget s.ten_seconds_orders_counts current_ten_seconds
  let current_minute_count := dget s.minutes_counts current_minute
  let current_day_count := dget s.days_counts current_day
  if current_second_count + 1 > s.rate_limit_per_second then (CMOutcome.ok false, s)
  else
    let s := { s with seconds_counts := dset s.seconds_counts current_second (current_second_count + 1) }
    if is_order ∧ current_ten_seconds_orders_counts + 1 > s.orders_limit_per_ten_seconds then
      (CMOutcome.ok false, s)
    else
      let s := if is_order then
          { s with ten_seconds_orders_counts := dset s.ten_seconds_orders_counts current_ten_seconds (current_ten_seconds_orders_counts + 1) }
        else s
      if current_minute_count + 1 > s.rate_limit_per_minute then (CMOutcome.ok false, s)
      else
        let s := { s with minutes_counts := dset s.minutes_counts current_minute (current_minute_count + 1) }
        if current_day_count + 1 > s.rate_limit_per_day then (CMOutcome.ok false, s)
        else
          let s := { s with days_counts := dset s.days_counts current_day (current_day_count + 1) }
          if current_minute_weight + weight > s.weight_limit_per_minute then (CMOutcome.ok false, s)
          else
            let s := { s with minutes_weights := dset s.minutes_weights current_minute (current_minute_weight + weight) }
            if current_minute > s.minute_for_clean ∨ current_hour > s.hour_for_clean then
              let s := { s with minute_for_clean := current_minute + s.clean_period_minutes,
                                hour_for_clean := current_hour }
              match clean_counters s with
              | none => (CMOutcome.typeError, s)
              | some s2 => (CMOutcome.ok true, s2)
            else (CMOutcome.ok true, s)

/-- Outcome of `_update_server_time_offset`: the new offset returned, the
bypass (admission refused, warning logged, `None` returned), or the
propagated `TypeError`. -/
inductive UOutcome where
  | updated : Int → UOutcome
  | bypassed : UOutcome
  | typeError : UOutcome
deriving Repr, DecidableEq

/-- Embedding of `BinanceRateLimiter._update_server_time_offset` (limits.py
lines 363-377): charge a weight-1 non-order admission probe; on success set
`server_time_offset` to the freshly fetched offset (`server_ms` is the
serverTime the HTTP call would return), on refusal log and return `None`
without touching the offset. -/
def _update_server_time_offset (s : RL) (t : Int) (server_ms : Int) : UOutcome × RL :=
  match can_make_request s 1 false t with
  | (CMOutcome.ok true, s1) =>
      let off := server_offset_refresh server_ms t
      (UOutcome.updated off, { s1 with server_time_offset := off })
  | (CMOutcome.ok false, s1) => (UOutcome.bypassed, s1)
  | (CMOutcome.typeError, s1) => (UOutcome.typeError, s1)

/-! ## String helpers for header normalization (ASCII, as the header names are) -/

/-- ASCII lowering of one character, the effect of Python `str.lower()` on
the ASCII header names involved. -/
def lowerChar (c : Char) : Char :=
  if 'A' ≤ c ∧ c ≤ 'Z' then Char.ofNat (c.toNat + 32) else c

/-- ASCII `str.lower()`. -/
def lowerStr (s : String) : String := String.mk (s.data.map lowerChar)

/-- Character-list prefix test. -/
def isPrefC : List Char → List Char → Bool
  | [], _ => true
  | _ :: _, [] => false
  | p :: ps, c :: cs => p == c && isPrefC ps cs

/-- Python `s.startswith(p)`. -/
def startsW (s p : String) : Bool := isPrefC p.data s.data

/-! ## Response headers (update_from_headers and friends) -/

/-- Python dict insert/overwrite for the normalized header dict. -/
def hset : List (String × Int) → String → Int → List (String × Int)
  | [], k, v => [(k, v)]
  | kv :: rest, k, v => if kv.1 == k then (k, v) :: rest else kv :: hset rest k v

/-- Python `k in d` for the normalized header dict. -/
def hmem (d : List (String × Int)) (k : String) : Bool := d.any (fun kv => kv.1 == k)

/-- Python `d.get(k, v0)` for the normalized header dict. -/
def hgetD (d : List (String × Int)) (k : String) (v0 : Int) : Int :=
  match d.find? (fun kv => kv.1 == k) with
  | some kv => kv.2
  | none => v0

/-- The dict comprehension of limits.py line 555: keep the headers whose
lowered name starts with `x-mbx-`, keyed by the lowered name.  Header values
are modelled as the integers the source later reads off them with `int()`. -/
def normalize_headers (headers : List (String × Int)) : List (String × Int) :=
  headers.foldl
    (fun acc kv =>
      if startsW (lowerStr kv.1) ("x-mbx-") then hset acc (lowerStr kv.1) kv.2 else acc)
    []

/-- The allowlist of limits.py line 538. -/
def expected_headers : List String :=
  ["x-mbx-uuid", "x-mbx-used-weight", "x-mbx-used-weight-1m", "x-mbx-order-count-10s",
   "x-mbx-order-count-1d"]

/-- Embedding of `BinanceRateLimiter.verify_unknown_headers` (limits.py lines
532-542): `true` means the `ValueError` is raised. -/
def verify_unknown_headers (normalized_headers : List (String × Int)) : Bool :=
  normalized_headers.any (fun kv => !(expected_headers.contains kv.1))

/-- Embedding of `BinanceRateLimiter.wrong_registered_value` (limits.py lines
513-530): `none` when the header is absent or agrees with the registered
value (the source's implicit `return None`), `some delta` otherwise. -/
def wrong_registered_value (hdr : String) (normalized_headers : List (String × Int))
    (registered_weight : Int) : Option Int :=
  if hmem normalized_headers hdr = false then none
  else
    let header_value := hgetD normalized_headers hdr 0
    if header_value ≠ registered_weight then some (header_value - registered_weight) else none

/-- Python truthiness of the optional delta (`if delta1:`): `None` and `0`
are falsy. -/
def truthy : Option Int → Bool
  | none => false
  | some d => !(d == 0)

/-- Result of `update_from_headers`: normal return, or the `ValueError` of
`verify_unknown_headers` (raised after the counter overwrites, which the
in-place mutations of the source keep either way). -/
inductive UFHResult where
  | okU : UFHResult
  | raisedUnknown : UFHResult
deriving Repr, DecidableEq

/-- Embedding of `BinanceRateLimiter.update_from_headers` (limits.py lines
544-576).  Note the source reads the registered ten-seconds value at the
`current_minute` key (line 564) while writing at `current_ten_seconds`. -/
def update_from_headers (s : RL) (headers : List (String × Int)) (t : Int) : UFHResult × RL :=
  let current_ten_seconds := _get_current_ten_seconds s t
  let current_minute := _get_current_minute s t
  let current_day := _get_current_day s t
  let nh := normalize_headers headers
  let delta1 := wrong_registered_value ("x-mbx-used-weight-1m") nh (dget s.minutes_weights current_minute)
  let s := if truthy delta1 then
      { s with minutes_weights := dset s.minutes_weights current_minute (hgetD nh ("x-mbx-used-weight-1m") 0) }
    else s
  let delta2 := wrong_registered_value ("x-mbx-order-count-10s") nh (dget s.ten_seconds_orders_counts current_minute)
  let s := if truthy delta2 then
      { s with ten_seconds_orders_counts := dset s.ten_seconds_orders_counts current_ten_seconds (hgetD nh ("x-mbx-order-count-10s") 0) }
    else s
  let delta3 := wrong_registered_value ("x-mbx-order-count-1d") nh (dget s.days_counts current_day)
  let s := if truthy delta3 then
      { s with days_counts := dset s.days_counts current_day (hgetD nh ("x-mbx-order-count-1d") 0) }
    else s
  if verify_unknown_headers nh then (UFHResult.raisedUnknown, s) else (UFHResult.okU, s)

/-! ## Concrete rate-limiter states for the scenarios -/

/-- A fresh limiter with the constructor's default limits, started at local
time 0 with offset 0 (so `minute_for_clean = 5`, `hour_for_clean = 0`). -/
def baseRL : RL :=
  { server_time_offset := 0
    rate_limit_per_day := 65000
    rate_limit_per_minute := 1200
    rate_limit_per_second := 10
    orders_limit_per_ten_seconds := 10
    weight_limit_per_minute := 50000
    minutes_weights := []
    seconds_counts := []
    ten_seconds_orders_counts := []
    minutes_counts := []
    days_counts := []
    clean_period_minutes := 5
    minute_for_clean := 5
    hour_for_clean := 0 }

/-- A limiter saturated in the minute-weight window (weight limit 100 already
fully consumed in the current minute bucket). -/
def S6state : RL := { baseRL with weight_limit_per_minute := 100, minutes_weights := [(0, 100)] }

/-- A limiter whose ten-seconds order counter holds 3 at the bucket of local
time 600000 ms (bucket 60), with every other counter empty. -/
def C2state : RL := { baseRL with ten_seconds_orders_counts := [(60, 3)] }

/-- The response headers of a reconciliation where the server reports 0
orders in the current ten-seconds window. -/
def C2headers : List (String × Int) := [("x-mbx-order-count-10s", 0)]

/-- A limiter whose housekeeping watermark is already crossed at local time
600000 ms (minute bucket 10 > 0), with a nonempty weight counter. -/
def C7state : RL := { baseRL with minute_for_clean := 0, minutes_weights := [(0, 7)] }

/-! ## SHA-256 and HMAC over byte lists (the primitives hashlib/hmac provide
to signatures.py; bytes are `Nat` below 256, words `Nat` below 2^32) -/

/-- Two to the 32, the word modulus of SHA-256. -/
def m32 : Nat := 4294967296

/-- Right rotation of a 32-bit word. -/
def rotr (n x : Nat) : Nat := ((x >>> n) ||| (x <<< (32 - n))) % m32

/-- The SHA-256 choice function (not-x as xor with the 32-bit mask). -/
def shaCh (x y z : Nat) : Nat := (x &&& y) ^^^ ((x ^^^ 4294967295) &&& z)

/-- The SHA-256 majority function. -/
def shaMaj (x y z : Nat) : Nat := (x &&& y) ^^^ (x &&& z) ^^^ (y &&& z)

/-- The SHA-256 big sigma 0. -/
def bigS0 (x : Nat) : Nat := rotr 2 x ^^^ rotr 13 x ^^^ rotr 22 x

/-- The SHA-256 big sigma 1. -/
def bigS1 (x : Nat) : Nat := rotr 6 x ^^^ rotr 11 x ^^^ rotr 25 x

/-- The SHA-256 small sigma 0. -/
def smallS0 (x : Nat) : Nat := rotr 7 x ^^^ rotr 18 x ^^^ (x >>> 3)

/-- The SHA-256 small sigma 1. -/
def smallS1 (x : Nat) : Nat := rotr 17 x ^^^ rotr 19 x ^^^ (x >>> 10)

/-- The 64 SHA-256 round constants. -/
def shaK : List Nat :=
  [1116352408, 1899447441, 3049323471, 3921009573, 961987163, 1508970993, 2453635748, 2870763221,
   3624381080, 310598401, 607225278, 1426881987, 1925078388, 2162078206, 2614888103, 3248222580,
   3835390401, 4022224774, 264347078, 604807628, 770255983, 1249150122, 1555081692, 1996064986,
   2554220882, 2821834349, 2952996808, 3210313671, 3336571891, 3584528711, 113926993, 338241895,
   666307205, 773529912, 1294757372, 1396182291, 1695183700, 1986661051, 2177026350, 2456956037,
   2730485921, 2820302411, 3259730800, 3345764771, 3516065817, 3600352804, 4094571909, 275423344,
   430227734, 506948616, 659060556, 883997877, 958139571, 1322822218, 1537002063, 1747873779,
   1955562222, 2024104815, 2227730452, 2361852424, 2428436474, 2756734187, 3204031479, 3329325298]

/-- List lookup with default 0. -/
def nth (l : List Nat) (i : Nat) : Nat := l.getD i 0

/-- One message-schedule word, computed from the reversed list of the words
already produced (head is the most recent). -/
def schedStep (ws : List Nat) : Nat :=
  (smallS1 (nth ws 1) + nth ws 6 + smallS0 (nth ws 14) + nth ws 15) % m32

/-- Extend the (reversed) message schedule by `n` words. -/
def extendSched : Nat → List Nat → List Nat
  | 0, ws => ws
  | n + 1, ws => extendSched n (schedStep ws :: ws)

/-- Big-endian 4-byte groups to 32-bit words. -/
def bytesToWords : List Nat → List Nat
  | a :: b :: c :: d :: rest => (((a * 256 + b) * 256 + c) * 256 + d) :: bytesToWords rest
  | _ => []

/-- Big-endian bytes of a number, fixed width. -/
def toBytesBE : Nat → Nat → List Nat
  | 0, _ => []
  | w + 1, n => (n / 256 ^ w % 256) :: toBytesBE w n

/-- Words back to big-endian bytes. -/
def wordsToBytes : List Nat → List Nat
  | [] => []
  | w :: rest => toBytesBE 4 w ++ wordsToBytes rest

/-- SHA-256 padding: 0x80, zeros to 56 mod 64, and the 8-byte bit length. -/
def sha256Pad (msg : List Nat) : List Nat :=
  msg ++ 0x80 :: List.replicate ((119 - msg.length % 64) % 64) 0 ++ toBytesBE 8 (msg.length * 8)

/-- One SHA-256 round on the 8-word working state. -/
def roundStep : Nat × Nat → List Nat → List Nat
  | (k, w), [a, b, c, d, e, f, g, h] =>
    let t1 := (h + bigS1 e + shaCh e f g + k + w) % m32
    let t2 := (bigS0 a + shaMaj a b c) % m32
    [(t1 + t2) % m32, a, b, c, (d + t1) % m32, e, f, g]
  | _, st => st

/-- The SHA-256 compression function over one 64-byte block. -/
def compress (hs : List Nat) (block : List Nat) : List Nat :=
  let ws := (extendSched 48 (bytesToWords block).reverse).reverse
  let fin := (shaK.zip ws).foldl (fun st kw => roundStep kw st) hs
  (hs.zip fin).map (fun p => (p.1 + p.2) % m32)

/-- Split a byte list into 64-byte chunks (fuel-driven so the kernel can
evaluate it; `fuel = bs.length` always suffices). -/
def chunksF : Nat → List Nat → List (List Nat)
  | 0, _ => []
  | _, [] => []
  | fuel + 1, bs => bs.take 64 :: chunksF fuel (bs.drop 64)

/-- The SHA-256 initial hash words. -/
def shaH0 : List Nat :=
  [1779033703, 3144134277, 1013904242, 2773480762, 1359893119, 2600822924, 528734635, 1541459225]

/-- SHA-256 of a byte list, as its 32 digest bytes. -/
def sha256 (msg : List Nat) : List Nat :=
  let padded := sha256Pad msg
  wordsToBytes ((chunksF padded.length padded).foldl compress shaH0)

/-- HMAC-SHA256 (RFC 2104) of a message under a key, both byte lists. -/
def hmac_sha256 (key msg : List Nat) : List Nat :=
  let key := if 64 < key.length then sha256 key else key
  let key := key ++ List.replicate (64 - key.length) 0
  sha256 ((key.map (fun b => b ^^^ 0x5C)) ++ sha256 ((key.map (fun b => b ^^^ 0x36)) ++ msg))

/-- One lowercase hex digit. -/
def hexChar (n : Nat) : Char := if n < 10 then Char.ofNat (48 + n) else Char.ofNat (87 + n)

/-- Python `hexdigest()`: the digest bytes as a lowercase hex string. -/
def hexdigest (bs : List Nat) : String :=
  String.mk ((bs.map (fun b => [hexChar (b / 16), hexChar (b % 16)])).flatten)

/-- UTF-8 bytes of one character. -/
def utf8Char (c : Char) : List Nat :=
  let n := c.toNat
  if n < 0x80 then [n]
  else if n < 0x800 then [0xC0 ||| (n >>> 6), 0x80 ||| (n &&& 0x3F)]
  else if n < 0x10000 then
    [0xE0 ||| (n >>> 12), 0x80 ||| ((n >>> 6) &&& 0x3F), 0x80 ||| (n &&& 0x3F)]
  else
    [0xF0 ||| (n >>> 18), 0x80 ||| ((n >>> 12) &&& 0x3F), 0x80 ||| ((n >>> 6) &&& 0x3F),
     0x80 ||| (n &&& 0x3F)]

/-- Python `s.encode()`: the UTF-8 bytes of a string. -/
def utf8Bytes (s : String) : List Nat := (s.data.map utf8Char).flatten

/-! ## Request signer (signatures.py, RequestSigner) -/

/-- Python `'&'.join(parts)`. -/
def ampJoin : List String → String
  | [] => ""
  | [p] => p
  | p :: q :: rest => p ++ ("&") ++ ampJoin (q :: rest)

/-- The query string of signatures.py line 93: `key=value` pairs joined with
`&` in input order (values modelled as their rendered f-string text). -/
def query_string (params : List (String × String)) : String :=
  ampJoin (params.map (fun kv => kv.1 ++ ("=") ++ kv.2))

/-- Embedding of `RequestSigner.sign_params` (signatures.py lines 69-100).
`secret` is the secret key string (its UTF-8 bytes key the HMAC); when
`add_timestamp` is set a `(timestamp_field, local_ms + server_time_offset)`
pair is appended unconditionally before serializing; the lowercase-hex
HMAC-SHA256 of the query string is appended as the final pair. -/
def sign_params (secret : String) (params : List (String × String)) (add_timestamp : Bool)
    (timestamp_field signature_field : String) (server_time_offset local_ms : Int) :
    List (String × String) :=
  let params :=
    if add_timestamp then params ++ [(timestamp_field, toString (local_ms + server_time_offset))]
    else params
  let signature := hexdigest (hmac_sha256 (utf8Bytes secret) (utf8Bytes (query_string params)))
  params ++ [(signature_field, signature)]

/-- Embedding of `sign_request` (request.py lines 35-73) on the dict path
with no `recvWindow` cleaning and scalar values: scan the items for a
`timestamp` key, then call the signer with `add_timestamp = not timestamped`. -/
def sign_request (secret : String) (params : List (String × String))
    (server_time_offset local_ms : Int) : List (String × String) :=
  let timestamped := params.any (fun kv => kv.1 == ("timestamp"))
  sign_params secret params (!timestamped) ("timestamp") ("signature") server_time_offset local_ms

/-- How many pairs of a parameter list carry a given key. -/
def count_key (k : String) (params : List (String × String)) : Nat :=
  (params.filter (fun kv => kv.1 == k)).length

/-- The fixed secret of scenario S2. -/
def S2secret : String := "NhqPtmdSJYdKjVHjA7PZj4Mge3R5YNiP1e3UZjInClVN65XAbvqqM6A7H5fATj0j"

/-- The fixed ordered parameters of scenario S2 (the `timestamp` entry is
already among them). -/
def S2params : List (String × String) :=
  [("symbol", "LTCBTC"), ("side", "BUY"), ("type", "LIMIT"), ("timeInForce", "GTC"),
   ("quantity", "1"), ("price", "0.1"), ("recvWindow", "5000"), ("timestamp", "1499827319559")]

/-! ## Credential sensitivity (keys.py, CredentialFileManager) -/

/-- Python `needle in haystack` substring containment. -/
def containsSub (needle haystack : String) : Bool :=
  (List.range (haystack.data.length + 1)).any (fun i => needle.data.isPrefixOf (haystack.data.drop i))

/-- Python `s.endswith(suffix)`, used only to state the claim's ends-with
reading against the source's containment test. -/
def endsW (s suffix : String) : Bool := List.isSuffixOf suffix.data s.data

/-- The substrings of keys.py line 275. -/
def sensitive_substrings : List String := ["secret", "api_key", "password", "_id"]

/-- Embedding of the sensitivity classification of
`CredentialFileManager.prompt_and_store_variable` (keys.py line 275):
`any(substring in variable_name for substring in [...])`, plain containment
for every entry including `_id`. -/
def is_sensitive_name (variable_name : String) : Bool :=
  sensitive_substrings.any (fun sub => containsSub sub variable_name)

/-! ## AES-128-CBC cipher (keys.py, class AesCipher)

The source encrypts with PyCryptodome: `pad(msg.encode(), 16)` (PKCS#7), then
`AES.new(key, AES.MODE_CBC, iv).encrypt`, then base64; decryption inverts the
pipeline and unpads. The AES-128 block cipher, CBC chaining, PKCS#7 padding and
base64 coding below are the algorithms those library calls compute (the block
cipher is checked below against the FIPS-197 appendix B vector and the
SP 800-38A F.2.1 CBC vector). Bytes are `Nat` values below 256; the 16-byte state is the
structure `B16` in column-major order. -/

def xtime (b : Nat) : Nat := if b < 128 then 2 * b else (2 * b) ^^^ 0x11B

def gm2 (b : Nat) : Nat := xtime b

def gm3 (b : Nat) : Nat := xtime b ^^^ b

def gm9 (b : Nat) : Nat := xtime (xtime (xtime b)) ^^^ b

def gm11 (b : Nat) : Nat := xtime (xtime (xtime b)) ^^^ xtime b ^^^ b

def gm13 (b : Nat) : Nat := xtime (xtime (xtime b)) ^^^ xtime (xtime b) ^^^ b

def gm14 (b : Nat) : Nat := xtime (xtime (xtime b)) ^^^ xtime (xtime b) ^^^ xtime b

def mixColumn : Nat × Nat × Nat × Nat → Nat × Nat × Nat × Nat
  | (a, b, c, d) =>
    (gm2 a ^^^ gm3 b ^^^ c ^^^ d,
     a ^^^ gm2 b ^^^ gm3 c ^^^ d,
     a ^^^ b ^^^ gm2 c ^^^ gm3 d,
     gm3 a ^^^ b ^^^ c ^^^ gm2 d)

def invMixColumn : Nat × Nat × Nat × Nat → Nat × Nat × Nat × Nat
  | (a, b, c, d) =>
    (gm14 a ^^^ gm11 b ^^^ gm13 c ^^^ gm9 d,
     gm9 a ^^^ gm14 b ^^^ gm11 c ^^^ gm13 d,
     gm13 a ^^^ gm9 b ^^^ gm14 c ^^^ gm11 d,
     gm11 a ^^^ gm13 b ^^^ gm9 c ^^^ gm14 d)

def sboxT : List Nat :=
  [0x63, 0x7c, 0x77, 0x7b, 0xf2, 0x6b, 0x6f, 0xc5, 0x30, 0x01, 0x67, 0x2b, 0xfe, 0xd7, 0xab, 0x76,
   0xca, 0x82, 0xc9, 0x7d, 0xfa, 0x59, 0x47, 0xf0, 0xad, 0xd4, 0xa2, 0xaf, 0x9c, 0xa4, 0x72, 0xc0,
   0xb7, 0xfd, 0x93, 0x26, 0x36, 0x3f, 0xf7, 0xcc, 0x34, 0xa5, 0xe5, 0xf1, 0x71, 0xd8, 0x31, 0x15,
   0x04, 0xc7, 0x23, 0xc3, 0x18, 0x96, 0x05, 0x9a, 0x07, 0x12, 0x80, 0xe2, 0xeb, 0x27, 0xb2, 0x75,
   0x09, 0x83, 0x2c, 0x1a, 0x1b, 0x6e, 0x5a, 0xa0, 0x52, 0x3b, 0xd6, 0xb3, 0x29, 0xe3, 0x2f, 0x84,
   0x53, 0xd1, 0x00, 0xed, 0x20, 0xfc, 0xb1, 0x5b, 0x6a, 0xcb, 0xbe, 0x39, 0x4a, 0x4c, 0x58, 0xcf,
   0xd0, 0xef, 0xaa, 0xfb, 0x43, 0x4d, 0x33, 0x85, 0x45, 0xf9, 0x02, 0x7f, 0x50, 0x3c, 0x9f, 0xa8,
   0x51, 0xa3, 0x40, 0x8f, 0x92, 0x9d, 0x38, 0xf5, 0xbc, 0xb6, 0xda, 0x21, 0x10, 0xff, 0xf3, 0xd2,
   0xcd, 0x0c, 0x13, 0xec, 0x5f, 0x97, 0x44, 0x17, 0xc4, 0xa7, 0x7e, 0x3d, 0x64, 0x5d, 0x19, 0x73,
   0x60, 0x81, 0x4f, 0xdc, 0x22, 0x2a, 0x90, 0x88, 0x46, 0xee, 0xb8, 0x14, 0xde, 0x5e, 0x0b, 0xdb,
   0xe0, 0x32, 0x3a, 0x0a, 0x49, 0x06, 0x24, 0x5c, 0xc2, 0xd3, 0xac, 0x62, 0x91, 0x95, 0xe4, 0x79,
   0xe7, 0xc8, 0x37, 0x6d, 0x8d, 0xd5, 0x4e, 0xa9, 0x6c, 0x56, 0xf4, 0xea, 0x65, 0x7a, 0xae, 0x08,
   0xba, 0x78, 0x25, 0x2e, 0x1c, 0xa6, 0xb4, 0xc6, 0xe8, 0xdd, 0x74, 0x1f, 0x4b, 0xbd, 0x8b, 0x8a,
   0x70, 0x3e, 0xb5, 0x66, 0x48, 0x03, 0xf6, 0x0e, 0x61, 0x35, 0x57, 0xb9, 0x86, 0xc1, 0x1d, 0x9e,
   0xe1, 0xf8, 0x98, 0x11, 0x69, 0xd9, 0x8e, 0x94, 0x9b, 0x1e, 0x87, 0xe9, 0xce, 0x55, 0x28, 0xdf,
   0x8c, 0xa1, 0x89, 0x0d, 0xbf, 0xe6, 0x42, 0x68, 0x41, 0x99, 0x2d, 0x0f, 0xb0, 0x54, 0xbb, 0x16]

def invSboxT : List Nat :=
  [0x52, 0x09, 0x6a, 0xd5, 0x30, 0x36, 0xa5, 0x38, 0xbf, 0x40, 0xa3, 0x9e, 0x81, 0xf3, 0xd7, 0xfb,
   0x7c, 0xe3, 0x39, 0x82, 0x9b, 0x2f, 0xff, 0x87, 0x34, 0x8e, 0x43, 0x44, 0xc4, 0xde, 0xe9, 0xcb,
   0x54, 0x7b, 0x94, 0x32, 0xa6, 0xc2, 0x23, 0x3d, 0xee, 0x4c, 0x95, 0x0b, 0x42, 0xfa, 0xc3, 0x4e,
   0x08, 0x2e, 0xa1, 0x66, 0x28, 0xd9, 0x24, 0xb2, 0x76, 0x5b, 0xa2, 0x49, 0x6d, 0x8b, 0xd1, 0x25,
   0x72, 0xf8, 0xf6, 0x64, 0x86, 0x68, 0x98, 0x16, 0xd4, 0xa4, 0x5c, 0xcc, 0x5d, 0x65, 0xb6, 0x92,
   0x6c, 0x70, 0x48, 0x50, 0xfd, 0xed, 0xb9, 0xda, 0x5e, 0x15, 0x46, 0x57, 0xa7, 0x8d, 0x9d, 0x84,
   0x90, 0xd8, 0xab, 0x00, 0x8c, 0xbc, 0xd3, 0x0a, 0xf7, 0xe4, 0x58, 0x05, 0xb8, 0xb3, 0x45, 0x06,
   0xd0, 0x2c, 0x1e, 0x8f, 0xca, 0x3f, 0x0f, 0x02, 0xc1, 0xaf, 0xbd, 0x03, 0x01, 0x13, 0x8a, 0x6b,
   0x3a, 0x91, 0x11, 0x41, 0x4f, 0x67, 0xdc, 0xea, 0x97, 0xf2, 0xcf, 0xce, 0xf0, 0xb4, 0xe6, 0x73,
   0x96, 0xac, 0x74, 0x22, 0xe7, 0xad, 0x35, 0x85, 0xe2, 0xf9, 0x37, 0xe8, 0x1c, 0x75, 0xdf, 0x6e,
   0x47, 0xf1, 0x1a, 0x71, 0x1d, 0x29, 0xc5, 0x89, 0x6f, 0xb7, 0x62, 0x0e, 0xaa, 0x18, 0xbe, 0x1b,
   0xfc, 0x56, 0x3e, 0x4b, 0xc6, 0xd2, 0x79, 0x20, 0x9a, 0xdb, 0xc0, 0xfe, 0x78, 0xcd, 0x5a, 0xf4,
   0x1f, 0xdd, 0xa8, 0x33, 0x88, 0x07, 0xc7, 0x31, 0xb1, 0x12, 0x10, 0x59, 0x27, 0x80, 0xec, 0x5f,
   0x60, 0x51, 0x7f, 0xa9, 0x19, 0xb5, 0x4a, 0x0d, 0x2d, 0xe5, 0x7a, 0x9f, 0x93, 0xc9, 0x9c, 0xef,
   0xa0, 0xe0, 0x3b, 0x4d, 0xae, 0x2a, 0xf5, 0xb0, 0xc8, 0xeb, 0xbb, 0x3c, 0x83, 0x53, 0x99, 0x61,
   0x17, 0x2b, 0x04, 0x7e, 0xba, 0x77, 0xd6, 0x26, 0xe1, 0x69, 0x14, 0x63, 0x55, 0x21, 0x0c, 0x7d]

def sb (b : Nat) : Nat := nth sboxT b

def isb (b : Nat) : Nat := nth invSboxT b

structure B16 where
  b0 : Nat
  b1 : Nat
  b2 : Nat
  b3 : Nat
  b4 : Nat
  b5 : Nat
  b6 : Nat
  b7 : Nat
  b8 : Nat
  b9 : Nat
  b10 : Nat
  b11 : Nat
  b12 : Nat
  b13 : Nat
  b14 : Nat
  b15 : Nat
deriving Repr, DecidableEq

def B16.Valid (s : B16) : Prop :=
  s.b0 < 256 ∧ s.b1 < 256 ∧ s.b2 < 256 ∧ s.b3 < 256 ∧
  s.b4 < 256 ∧ s.b5 < 256 ∧ s.b6 < 256 ∧ s.b7 < 256 ∧
  s.b8 < 256 ∧ s.b9 < 256 ∧ s.b10 < 256 ∧ s.b11 < 256 ∧
  s.b12 < 256 ∧ s.b13 < 256 ∧ s.b14 < 256 ∧ s.b15 < 256

def default16 : B16 := ⟨0, 0, 0, 0, 0, 0, 0, 0, 0, 0, 0, 0, 0, 0, 0, 0⟩

def subB (s : B16) : B16 :=
  ⟨sb s.b0, sb s.b1, sb s.b2, sb s.b3, sb s.b4, sb s.b5, sb s.b6, sb s.b7,
   sb s.b8, sb s.b9, sb s.b10, sb s.b11, sb s.b12, sb s.b13, sb s.b14, sb s.b15⟩

def invSubB (s : B16) : B16 :=
  ⟨isb s.b0, isb s.b1, isb s.b2, isb s.b3, isb s.b4, isb s.b5, isb s.b6, isb s.b7,
   isb s.b8, isb s.b9, isb s.b10, isb s.b11, isb s.b12, isb s.b13, isb s.b14, isb s.b15⟩

def shiftR (s : B16) : B16 :=
  ⟨s.b0, s.b5, s.b10, s.b15, s.b4, s.b9, s.b14, s.b3,
   s.b8, s.b13, s.b2, s.b7, s.b12, s.b1, s.b6, s.b11⟩

def invShiftR (s : B16) : B16 :=
  ⟨s.b0, s.b13, s.b10, s.b7, s.b4, s.b1, s.b14, s.b11,
   s.b8, s.b5, s.b2, s.b15, s.b12, s.b9, s.b6, s.b3⟩

def ofCols :
    (Nat × Nat × Nat × Nat) × (Nat × Nat × Nat × Nat) × (Nat × Nat × Nat × Nat) ×
      (Nat × Nat × Nat × Nat) → B16
  | ((a0, a1, a2, a3), (b0, b1, b2, b3), (c0, c1, c2, c3), (d0, d1, d2, d3)) =>
    ⟨a0, a1, a2, a3, b0, b1, b2, b3, c0, c1, c2, c3, d0, d1, d2, d3⟩

def mixC (s : B16) : B16 :=
  ofCols (mixColumn (s.b0, s.b1, s.b2, s.b3), mixColumn (s.b4, s.b5, s.b6, s.b7),
    mixColumn (s.b8, s.b9, s.b10, s.b11), mixColumn (s.b12, s.b13, s.b14, s.b15))

def invMixC (s : B16) : B16 :=
  ofCols (invMixColumn (s.b0, s.b1, s.b2, s.b3), invMixColumn (s.b4, s.b5, s.b6, s.b7),
    invMixColumn (s.b8, s.b9, s.b10, s.b11), invMixColumn (s.b12, s.b13, s.b14, s.b15))

def addB (k s : B16) : B16 :=
  ⟨s.b0 ^^^ k.b0, s.b1 ^^^ k.b1, s.b2 ^^^ k.b2, s.b3 ^^^ k.b3,
   s.b4 ^^^ k.b4, s.b5 ^^^ k.b5, s.b6 ^^^ k.b6, s.b7 ^^^ k.b7,
   s.b8 ^^^ k.b8, s.b9 ^^^ k.b9, s.b10 ^^^ k.b10, s.b11 ^^^ k.b11,
   s.b12 ^^^ k.b12, s.b13 ^^^ k.b13, s.b14 ^^^ k.b14, s.b15 ^^^ k.b15⟩

def xorW (a b : Nat × Nat × Nat × Nat) : Nat × Nat × Nat × Nat :=
  (a.1 ^^^ b.1, a.2.1 ^^^ b.2.1, a.2.2.1 ^^^ b.2.2.1, a.2.2.2 ^^^ b.2.2.2)

def rotW (w : Nat × Nat × Nat × Nat) : Nat × Nat × Nat × Nat := (w.2.1, w.2.2.1, w.2.2.2, w.1)

def subW (w : Nat × Nat × Nat × Nat) : Nat × Nat × Nat × Nat :=
  (sb w.1, sb w.2.1, sb w.2.2.1, sb w.2.2.2)

def rconT : List Nat := [0x01, 0x02, 0x04, 0x08, 0x10, 0x20, 0x40, 0x80, 0x1B, 0x36]

def rconW (r : Nat) : Nat × Nat × Nat × Nat := (nth rconT r, 0, 0, 0)

def nthW (ws : List (Nat × Nat × Nat × Nat)) (i : Nat) : Nat × Nat × Nat × Nat :=
  ws.getD i (0, 0, 0, 0)

def nextW (i : Nat) (ws : List (Nat × Nat × Nat × Nat)) : Nat × Nat × Nat × Nat :=
  if i % 4 == 0 then xorW (nthW ws 3) (xorW (subW (rotW (nthW ws 0))) (rconW (i / 4 - 1)))
  else xorW (nthW ws 3) (nthW ws 0)

def expandW : Nat → Nat → List (Nat × Nat × Nat × Nat) → List (Nat × Nat × Nat × Nat)
  | 0, _, ws => ws
  | n + 1, i, ws => expandW n (i + 1) (nextW i ws :: ws)

def keyWordsOf (key : List Nat) : List (Nat × Nat × Nat × Nat) :=
  (expandW 40 4
    [(nth key 12, nth key 13, nth key 14, nth key 15),
     (nth key 8, nth key 9, nth key 10, nth key 11),
     (nth key 4, nth key 5, nth key 6, nth key 7),
     (nth key 0, nth key 1, nth key 2, nth key 3)]).reverse

def b16OfW (w0 w1 w2 w3 : Nat × Nat × Nat × Nat) : B16 :=
  ⟨w0.1, w0.2.1, w0.2.2.1, w0.2.2.2, w1.1, w1.2.1, w1.2.2.1, w1.2.2.2,
   w2.1, w2.2.1, w2.2.2.1, w2.2.2.2, w3.1, w3.2.1, w3.2.2.1, w3.2.2.2⟩

def keysFrom : List (Nat × Nat × Nat × Nat) → List B16
  | w0 :: w1 :: w2 :: w3 :: rest => b16OfW w0 w1 w2 w3 :: keysFrom rest
  | _ => []

def roundKeysOf (key : List Nat) : List B16 := keysFrom (keyWordsOf key)

def aesRound (k s : B16) : B16 := addB k (mixC (shiftR (subB s)))

def invAesRound (k s : B16) : B16 := invSubB (invShiftR (invMixC (addB k s)))

def encWith (k0 : B16) (mid : List B16) (kl : B16) (s : B16) : B16 :=
  addB kl (shiftR (subB (mid.foldl (fun st k => aesRound k st) (addB k0 s))))

def decWith (k0 : B16) (mid : List B16) (kl : B16) (s : B16) : B16 :=
  addB k0 (mid.foldr (fun k st => invAesRound k st) (invSubB (invShiftR (addB kl s))))

def blockOfList (l : List Nat) : B16 :=
  ⟨nth l 0, nth l 1, nth l 2, nth l 3, nth l 4, nth l 5, nth l 6, nth l 7,
   nth l 8, nth l 9, nth l 10, nth l 11, nth l 12, nth l 13, nth l 14, nth l 15⟩

def listOfBlock (s : B16) : List Nat :=
  [s.b0, s.b1, s.b2, s.b3, s.b4, s.b5, s.b6, s.b7,
   s.b8, s.b9, s.b10, s.b11, s.b12, s.b13, s.b14, s.b15]

def valid4 (w : Nat × Nat × Nat × Nat) : Prop :=
  w.1 < 256 ∧ w.2.1 < 256 ∧ w.2.2.1 < 256 ∧ w.2.2.2 < 256

def cbcEncB (k0 : B16) (mid : List B16) (kl : B16) : B16 → List B16 → List B16
  | _, [] => []
  | prev, p :: rest =>
      encWith k0 mid kl (addB prev p) ::
        cbcEncB k0 mid kl (encWith k0 mid kl (addB prev p)) rest

def cbcDecB (k0 : B16) (mid : List B16) (kl : B16) : B16 → List B16 → List B16
  | _, [] => []
  | prev, c :: rest => addB prev (decWith k0 mid kl c) :: cbcDecB k0 mid kl c rest

def chunks16F : Nat → List Nat → List (List Nat)
  | 0, _ => []
  | _, [] => []
  | fuel + 1, bs => bs.take 16 :: chunks16F fuel (bs.drop 16)

def chunks16 (bs : List Nat) : List (List Nat) := chunks16F bs.length bs

def pad16 (bs : List Nat) : List Nat :=
  bs ++ List.replicate (16 - bs.length % 16) (16 - bs.length % 16)

def unpad16 (bs : List Nat) : Option (List Nat) :=
  if bs.length % 16 = 0 ∧ bs.length ≠ 0 then
    if 1 ≤ bs.getD (bs.length - 1) 0 ∧ bs.getD (bs.length - 1) 0 ≤ 16 ∧
        bs.getD (bs.length - 1) 0 ≤ bs.length ∧
        (bs.drop (bs.length - bs.getD (bs.length - 1) 0)).all
          (fun x => x == bs.getD (bs.length - 1) 0)
    then some (bs.take (bs.length - bs.getD (bs.length - 1) 0)) else none
  else none

def b64T : List Char := "ABCDEFGHIJKLMNOPQRSTUVWXYZabcdefghijklmnopqrstuvwxyz0123456789+/".data

def b64c (n : Nat) : Char := b64T.getD n 'A'

def b64vA : List Char → Nat → Char → Option Nat
  | [], _, _ => none
  | t :: rest, i, c => if t == c then some i else b64vA rest (i + 1) c

def b64v (c : Char) : Option Nat := b64vA b64T 0 c

def b64enc : List Nat → List Char
  | a :: b :: c :: rest =>
      b64c (a / 4) :: b64c (a % 4 * 16 + b / 16) :: b64c (b % 16 * 4 + c / 64) :: b64c (c % 64) ::
        b64enc rest
  | [a, b] => [b64c (a / 4), b64c (a % 4 * 16 + b / 16), b64c (b % 16 * 4), '=']
  | [a] => [b64c (a / 4), b64c (a % 4 * 16), '=', '=']
  | [] => []

def b64dec : List Char → Option (List Nat)
  | [] => some []
  | c1 :: c2 :: c3 :: c4 :: rest =>
      match b64v c1, b64v c2 with
      | some v1, some v2 =>
          if c3 == '=' then
            if c4 == '=' ∧ rest = [] then some [v1 * 4 + v2 / 16] else none
          else
            match b64v c3 with
            | some v3 =>
                if c4 == '=' then
                  if rest = [] then some [v1 * 4 + v2 / 16, v2 % 16 * 16 + v3 / 4] else none
                else
                  match b64v c4, b64dec rest with
                  | some v4, some tail =>
                      some ((v1 * 4 + v2 / 16) :: (v2 % 16 * 16 + v3 / 4) :: (v3 % 4 * 64 + v4) :: tail)
                  | _, _ => none
            | none => none
      | _, _ => none
  | _ => none

def aes_encrypt (key iv msg : List Nat) : String :=
  String.mk (b64enc (((cbcEncB ((roundKeysOf key).headD default16)
    (((roundKeysOf key).drop 1).take 9) ((roundKeysOf key).getD 10 default16)
    (blockOfList iv) ((chunks16 (pad16 msg)).map blockOfList)).map listOfBlock).flatten))

def aes_decrypt (key iv : List Nat) (ct : String) : Option (List Nat) :=
  (b64dec ct.data).bind (fun bytes =>
    if bytes.length % 16 = 0 then
      unpad16 (((cbcDecB ((roundKeysOf key).headD default16)
        (((roundKeysOf key).drop 1).take 9) ((roundKeysOf key).getD 10 default16)
        (blockOfList iv) ((chunks16 bytes).map blockOfList)).map listOfBlock).flatten)
    else none)

/-! ## Helper lemmas -/

theorem dget_dset (d : List (Int × Int)) (k v : Int) : dget (dset d k v) k = v := by
  induction d with
  | nil => simp [dget, dset]
  | cons kv rest ih =>
      simp only [dset]
      by_cases h : kv.1 = k
      · simp [dget, h]
      · simp only [beq_iff_eq, h, if_false, dget, List.find?]
        have hne : (kv.1 == k) = false := by simp [h]
        rw [hne]
        exact ih

theorem ite_te_ne (c : Prop) [Decidable c] :
    ((if c then CMOutcome.typeError else CMOutcome.ok true) = CMOutcome.ok false) ↔ False := by
  split <;> simp

theorem cmr_tsoc_false (s : RL) (w t : Int) :
    ((can_make_request s w false t).2).ten_seconds_orders_counts = s.ten_seconds_orders_counts := by
  unfold can_make_request
  simp only [clean_counters, Bool.false_eq_true, false_and, if_false, apply_ite
    (fun p : CMOutcome × RL => p.2.ten_seconds_orders_counts)]
  split <;> simp

theorem cmr_offset (s : RL) (w : Int) (io : Bool) (t : Int) :
    ((can_make_request s w io t).2).server_time_offset = s.server_time_offset := by
  unfold can_make_request
  simp only [clean_counters, apply_ite (fun p : CMOutcome × RL => p.2.server_time_offset)]
  split <;> simp <;> split <;> simp

theorem cmr_weights_cases (s : RL) (w : Int) (io : Bool) (t : Int) :
    ((can_make_request s w io t).2).minutes_weights = s.minutes_weights ∨
      (can_make_request s w io t).1 ≠ CMOutcome.ok false := by
  unfold can_make_request
  simp only [clean_counters, apply_ite (fun p : CMOutcome × RL => p.1),
    apply_ite (fun p : CMOutcome × RL => p.2.minutes_weights)]
  split <;> simp [ite_te_ne]
  split <;> simp [ite_te_ne]
  all_goals tauto

theorem mem_hset (d : List (String × Int)) (k : String) (v : Int) (k' : String) :
    (∃ kv ∈ hset d k v, kv.1 = k') ↔ (k' = k ∨ ∃ kv ∈ d, kv.1 = k') := by
  induction d with
  | nil => simp [hset, eq_comm]
  | cons kv rest ih =>
      simp only [hset]
      by_cases h : kv.1 = k
      · simp only [h, beq_self_eq_true, if_true, List.mem_cons]
        constructor
        · rintro ⟨kv2, hm | hm, he⟩
          · left; rw [hm] at he; exact he.symm ▸ rfl
          · right; exact ⟨kv2, Or.inr hm, he⟩
        · rintro (he | ⟨kv2, hm | hm, he⟩)
          · exact ⟨(k, v), Or.inl rfl, he.symm⟩
          · exact ⟨(k, v), Or.inl rfl, by rw [hm] at he; rw [← he, h]⟩
          · exact ⟨kv2, Or.inr hm, he⟩
      · have hb : (kv.1 == k) = false := by simp [h]
        simp only [hb, Bool.false_eq_true, if_false, List.mem_cons]
        constructor
        · rintro ⟨kv2, hm | hm, he⟩
          · right; exact ⟨kv2, Or.inl hm, he⟩
          · rcases (ih.mp ⟨kv2, hm, he⟩) with hk | ⟨kv3, hm3, he3⟩
            · exact Or.inl hk
            · exact Or.inr ⟨kv3, Or.inr hm3, he3⟩
        · rintro (he | ⟨kv2, hm | hm, he⟩)
          · obtain ⟨kv3, hm3, he3⟩ := ih.mpr (Or.inl he)
            exact ⟨kv3, Or.inr hm3, he3⟩
          · exact ⟨kv2, Or.inl hm, he⟩
          · obtain ⟨kv3, hm3, he3⟩ := ih.mpr (Or.inr ⟨kv2, hm, he⟩)
            exact ⟨kv3, Or.inr hm3, he3⟩

theorem mem_norm_aux (headers acc : List (String × Int)) (k' : String) :
    (∃ kv ∈ headers.foldl
        (fun acc kv =>
          if startsW (lowerStr kv.1) ("x-mbx-") then hset acc (lowerStr kv.1) kv.2 else acc)
        acc, kv.1 = k') ↔
      ((∃ kv ∈ acc, kv.1 = k') ∨
        ∃ kv ∈ headers, startsW (lowerStr kv.1) ("x-mbx-") = true ∧ lowerStr kv.1 = k') := by
  induction headers generalizing acc with
  | nil => simp
  | cons kv rest ih =>
      simp only [List.foldl_cons, List.mem_cons]
      by_cases h : startsW (lowerStr kv.1) ("x-mbx-") = true
      · rw [if_pos h, ih, mem_hset]
        constructor
        · rintro ((he | ⟨kv2, hm, he⟩) | ⟨kv2, hm, hp, he⟩)
          · exact Or.inr ⟨kv, Or.inl rfl, h, he.symm⟩
          · exact Or.inl ⟨kv2, hm, he⟩
          · exact Or.inr ⟨kv2, Or.inr hm, hp, he⟩
        · rintro (⟨kv2, hm, he⟩ | ⟨kv2, hm | hm, hp, he⟩)
          · exact Or.inl (Or.inr ⟨kv2, hm, he⟩)
          · exact Or.inl (Or.inl (by rw [hm] at he; exact he.symm))
          · exact Or.inr ⟨kv2, hm, hp, he⟩
      · rw [if_neg h, ih]
        constructor
        · rintro (⟨kv2, hm, he⟩ | ⟨kv2, hm, hp, he⟩)
          · exact Or.inl ⟨kv2, hm, he⟩
          · exact Or.inr ⟨kv2, Or.inr hm, hp, he⟩
        · rintro (⟨kv2, hm, he⟩ | ⟨kv2, hm | hm, hp, he⟩)
          · exact Or.inl ⟨kv2, hm, he⟩
          · rw [hm] at hp; exact absurd hp h
          · exact Or.inr ⟨kv2, hm, hp, he⟩

theorem mem_norm (headers : List (String × Int)) (k' : String) :
    (∃ kv ∈ normalize_headers headers, kv.1 = k') ↔
      ∃ kv ∈ headers, startsW (lowerStr kv.1) ("x-mbx-") = true ∧ lowerStr kv.1 = k' := by
  unfold normalize_headers
  rw [mem_norm_aux]
  simp

theorem verify_iff (headers : List (String × Int)) :
    verify_unknown_headers (normalize_headers headers) = true ↔
      ∃ kv ∈ headers, startsW (lowerStr kv.1) ("x-mbx-") = true ∧
        expected_headers.contains (lowerStr kv.1) = false := by
  unfold verify_unknown_headers
  rw [List.any_eq_true]
  constructor
  · rintro ⟨kv, hm, hneg⟩
    obtain ⟨kv2, hm2, hp, he⟩ := (mem_norm headers kv.1).mp ⟨kv, hm, rfl⟩
    refine ⟨kv2, hm2, hp, ?_⟩
    rw [he]
    simpa using hneg
  · rintro ⟨kv, hm, hp, hcon⟩
    obtain ⟨kv2, hm2, he⟩ := (mem_norm headers (lowerStr kv.1)).mpr ⟨kv, hm, hp, rfl⟩
    refine ⟨kv2, hm2, ?_⟩
    rw [Bool.not_eq_true', he]
    exact hcon

theorem ufh_fst (s : RL) (headers : List (String × Int)) (t : Int) :
    (update_from_headers s headers t).1 =
      if verify_unknown_headers (normalize_headers headers) then UFHResult.raisedUnknown
      else UFHResult.okU := by
  unfold update_from_headers
  simp only [apply_ite (fun p : UFHResult × RL => p.1)]

/-! ## AES cipher helper lemmas: MixColumns inversion over GF(2^8), round and
CBC inversion with byte-range validity threading, PKCS#7 and base64 round
trips, 16-byte chunking, and the assembled pipeline round trip. -/

set_option maxRecDepth 100000 in
theorem xtime_lt : ∀ x < 256, xtime x < 256 := by decide

theorem two_mul_xor (a b : Nat) : 2 * (a ^^^ b) = 2 * a ^^^ 2 * b := by
  have h : ∀ n : Nat, 2 * n = n <<< 1 := by
    intro n
    rw [Nat.shiftLeft_eq]
    ring
  rw [h, h, h]
  refine Nat.eq_of_testBit_eq ?_
  intro i
  simp only [Nat.testBit_shiftLeft, Nat.testBit_xor]
  cases hd : decide (i ≥ 1) <;> simp

theorem div128_xor {x y : Nat} (hx : x < 256) (hy : y < 256) :
    (x ^^^ y) / 128 = x / 128 ^^^ y / 128 := by
  have h : ∀ n : Nat, n / 128 = n >>> 7 := by
    intro n
    rw [Nat.shiftRight_eq_div_pow]
  rw [h, h, h]
  refine Nat.eq_of_testBit_eq ?_
  intro i
  simp only [Nat.testBit_shiftRight, Nat.testBit_xor]

theorem xor_lt_128 {x y : Nat} (hx : x < 256) (hy : y < 256) :
    (x ^^^ y < 128 ↔ (x < 128 ↔ y < 128)) := by
  have hxy : x ^^^ y < 256 := Nat.xor_lt_two_pow (n := 8) hx hy
  have hd := div128_xor hx hy
  have h1 : x / 128 = 0 ∨ x / 128 = 1 := by omega
  have h2 : y / 128 = 0 ∨ y / 128 = 1 := by omega
  rcases h1 with h1 | h1 <;> rcases h2 with h2 | h2 <;>
    rw [h1, h2] at hd <;> simp at hd <;> omega

theorem xtime_xor : ∀ x < 256, ∀ y < 256, xtime (x ^^^ y) = xtime x ^^^ xtime y := by
  intro x hx y hy
  have h2 := two_mul_xor x y
  have hb := xor_lt_128 hx hy
  unfold xtime
  by_cases c1 : x < 128 <;> by_cases c2 : y < 128
  · rw [if_pos c1, if_pos c2, if_pos (hb.mpr (by tauto)), h2]
  · rw [if_pos c1, if_neg c2, if_neg (by intro hc; exact c2 ((hb.mp hc).mp c1)), h2]
    rw [Nat.xor_assoc]
  · rw [if_neg c1, if_pos c2, if_neg (by intro hc; exact c1 ((hb.mp hc).mpr c2)), h2]
    rw [Nat.xor_assoc, Nat.xor_comm (2 * y) 0x11B, ← Nat.xor_assoc]
  · rw [if_neg c1, if_neg c2, if_pos (hb.mpr (by tauto)), h2]
    rw [Nat.xor_assoc, ← Nat.xor_assoc 0x11B, Nat.xor_comm 0x11B, Nat.xor_assoc,
      Nat.xor_self, Nat.xor_zero]

theorem xorB_lt {x y : Nat} (hx : x < 256) (hy : y < 256) : x ^^^ y < 256 :=
  Nat.xor_lt_two_pow (n := 8) hx hy

theorem xor_lcomm (a b c : Nat) : a ^^^ (b ^^^ c) = b ^^^ (a ^^^ c) := by
  rw [← Nat.xor_assoc, Nat.xor_comm a b, Nat.xor_assoc]

theorem xtime_xorB {x y : Nat} (hx : x < 256) (hy : y < 256) :
    xtime (x ^^^ y) = xtime x ^^^ xtime y := xtime_xor x hx y hy

theorem gm2_xorB {x y : Nat} (hx : x < 256) (hy : y < 256) :
    gm2 (x ^^^ y) = gm2 x ^^^ gm2 y := xtime_xorB hx hy

theorem gm3_xorB {x y : Nat} (hx : x < 256) (hy : y < 256) :
    gm3 (x ^^^ y) = gm3 x ^^^ gm3 y := by
  unfold gm3
  rw [xtime_xorB hx hy]
  simp [Nat.xor_assoc, Nat.xor_comm, xor_lcomm]

theorem gm9_xorB {x y : Nat} (hx : x < 256) (hy : y < 256) :
    gm9 (x ^^^ y) = gm9 x ^^^ gm9 y := by
  unfold gm9
  rw [xtime_xorB hx hy, xtime_xorB (xtime_lt x hx) (xtime_lt y hy),
    xtime_xorB (xtime_lt _ (xtime_lt x hx)) (xtime_lt _ (xtime_lt y hy))]
  simp [Nat.xor_assoc, Nat.xor_comm, xor_lcomm]

theorem gm11_xorB {x y : Nat} (hx : x < 256) (hy : y < 256) :
    gm11 (x ^^^ y) = gm11 x ^^^ gm11 y := by
  unfold gm11
  rw [xtime_xorB hx hy, xtime_xorB (xtime_lt x hx) (xtime_lt y hy),
    xtime_xorB (xtime_lt _ (xtime_lt x hx)) (xtime_lt _ (xtime_lt y hy))]
  simp [Nat.xor_assoc, Nat.xor_comm, xor_lcomm]

theorem gm13_xorB {x y : Nat} (hx : x < 256) (hy : y < 256) :
    gm13 (x ^^^ y) = gm13 x ^^^ gm13 y := by
  unfold gm13
  rw [xtime_xorB hx hy, xtime_xorB (xtime_lt x hx) (xtime_lt y hy),
    xtime_xorB (xtime_lt _ (xtime_lt x hx)) (xtime_lt _ (xtime_lt y hy))]
  simp [Nat.xor_assoc, Nat.xor_comm, xor_lcomm]

theorem gm14_xorB {x y : Nat} (hx : x < 256) (hy : y < 256) :
    gm14 (x ^^^ y) = gm14 x ^^^ gm14 y := by
  unfold gm14
  rw [xtime_xorB hx hy, xtime_xorB (xtime_lt x hx) (xtime_lt y hy),
    xtime_xorB (xtime_lt _ (xtime_lt x hx)) (xtime_lt _ (xtime_lt y hy))]
  simp [Nat.xor_assoc, Nat.xor_comm, xor_lcomm]

set_option maxRecDepth 100000 in
theorem coeffD : ∀ x < 256, gm14 (gm2 x) ^^^ gm11 x ^^^ gm13 x ^^^ gm9 (gm3 x) = x := by decide

set_option maxRecDepth 100000 in
theorem coeffZ1 : ∀ x < 256, gm14 (gm3 x) ^^^ gm11 (gm2 x) ^^^ gm13 x ^^^ gm9 x = 0 := by decide

set_option maxRecDepth 100000 in
theorem coeffZ2 : ∀ x < 256, gm14 x ^^^ gm11 (gm3 x) ^^^ gm13 (gm2 x) ^^^ gm9 x = 0 := by decide

set_option maxRecDepth 100000 in
theorem coeffZ3 : ∀ x < 256, gm14 x ^^^ gm11 x ^^^ gm13 (gm3 x) ^^^ gm9 (gm2 x) = 0 := by decide

set_option maxRecDepth 100000 in
theorem gm2_lt : ∀ x < 256, gm2 x < 256 := by decide

set_option maxRecDepth 100000 in
theorem gm3_lt : ∀ x < 256, gm3 x < 256 := by decide

theorem invMix_mix (a b c d : Nat) (ha : a < 256) (hb : b < 256) (hc : c < 256)
    (hd : d < 256) : invMixColumn (mixColumn (a, b, c, d)) = (a, b, c, d) := by
  have h2a := gm2_lt a ha
  have h2b := gm2_lt b hb
  have h2c := gm2_lt c hc
  have h2d := gm2_lt d hd
  have h3a := gm3_lt a ha
  have h3b := gm3_lt b hb
  have h3c := gm3_lt c hc
  have h3d := gm3_lt d hd
  unfold mixColumn invMixColumn
  simp only [Prod.mk.injEq]
  refine ⟨?_, ?_, ?_, ?_⟩
  · rw [gm14_xorB (xorB_lt (xorB_lt h2a h3b) hc) hd,
      gm14_xorB (xorB_lt h2a h3b) hc, gm14_xorB h2a h3b,
      gm11_xorB (xorB_lt (xorB_lt ha h2b) h3c) hd,
      gm11_xorB (xorB_lt ha h2b) h3c, gm11_xorB ha h2b,
      gm13_xorB (xorB_lt (xorB_lt ha hb) h2c) h3d,
      gm13_xorB (xorB_lt ha hb) h2c, gm13_xorB ha hb,
      gm9_xorB (xorB_lt (xorB_lt h3a hb) hc) h2d,
      gm9_xorB (xorB_lt h3a hb) hc, gm9_xorB h3a hb]
    calc (gm14 (gm2 a) ^^^ gm14 (gm3 b) ^^^ gm14 c ^^^ gm14 d) ^^^
          (gm11 a ^^^ gm11 (gm2 b) ^^^ gm11 (gm3 c) ^^^ gm11 d) ^^^
          (gm13 a ^^^ gm13 b ^^^ gm13 (gm2 c) ^^^ gm13 (gm3 d)) ^^^
          (gm9 (gm3 a) ^^^ gm9 b ^^^ gm9 c ^^^ gm9 (gm2 d))
        = (gm14 (gm2 a) ^^^ gm11 a ^^^ gm13 a ^^^ gm9 (gm3 a)) ^^^
          ((gm14 (gm3 b) ^^^ gm11 (gm2 b) ^^^ gm13 b ^^^ gm9 b) ^^^
           ((gm14 c ^^^ gm11 (gm3 c) ^^^ gm13 (gm2 c) ^^^ gm9 c) ^^^
            (gm14 d ^^^ gm11 d ^^^ gm13 (gm3 d) ^^^ gm9 (gm2 d)))) := by
          simp only [Nat.xor_assoc, Nat.xor_comm, xor_lcomm]
      _ = a := by rw [coeffD a ha, coeffZ1 b hb, coeffZ2 c hc, coeffZ3 d hd]; simp
  · rw [gm9_xorB (xorB_lt (xorB_lt h2a h3b) hc) hd,
      gm9_xorB (xorB_lt h2a h3b) hc, gm9_xorB h2a h3b,
      gm14_xorB (xorB_lt (xorB_lt ha h2b) h3c) hd,
      gm14_xorB (xorB_lt ha h2b) h3c, gm14_xorB ha h2b,
      gm11_xorB (xorB_lt (xorB_lt ha hb) h2c) h3d,
      gm11_xorB (xorB_lt ha hb) h2c, gm11_xorB ha hb,
      gm13_xorB (xorB_lt (xorB_lt h3a hb) hc) h2d,
      gm13_xorB (xorB_lt h3a hb) hc, gm13_xorB h3a hb]
    calc (gm9 (gm2 a) ^^^ gm9 (gm3 b) ^^^ gm9 c ^^^ gm9 d) ^^^
          (gm14 a ^^^ gm14 (gm2 b) ^^^ gm14 (gm3 c) ^^^ gm14 d) ^^^
          (gm11 a ^^^ gm11 b ^^^ gm11 (gm2 c) ^^^ gm11 (gm3 d)) ^^^
          (gm13 (gm3 a) ^^^ gm13 b ^^^ gm13 c ^^^ gm13 (gm2 d))
        = (gm14 a ^^^ gm11 a ^^^ gm13 (gm3 a) ^^^ gm9 (gm2 a)) ^^^
          ((gm14 (gm2 b) ^^^ gm11 b ^^^ gm13 b ^^^ gm9 (gm3 b)) ^^^
           ((gm14 (gm3 c) ^^^ gm11 (gm2 c) ^^^ gm13 c ^^^ gm9 c) ^^^
            (gm14 d ^^^ gm11 (gm3 d) ^^^ gm13 (gm2 d) ^^^ gm9 d))) := by
          simp only [Nat.xor_assoc, Nat.xor_comm, xor_lcomm]
      _ = b := by rw [coeffZ3 a ha, coeffD b hb, coeffZ1 c hc, coeffZ2 d hd]; simp
  · rw [gm13_xorB (xorB_lt (xorB_lt h2a h3b) hc) hd,
      gm13_xorB (xorB_lt h2a h3b) hc, gm13_xorB h2a h3b,
      gm9_xorB (xorB_lt (xorB_lt ha h2b) h3c) hd,
      gm9_xorB (xorB_lt ha h2b) h3c, gm9_xorB ha h2b,
      gm14_xorB (xorB_lt (xorB_lt ha hb) h2c) h3d,
      gm14_xorB (xorB_lt ha hb) h2c, gm14_xorB ha hb,
      gm11_xorB (xorB_lt (xorB_lt h3a hb) hc) h2d,
      gm11_xorB (xorB_lt h3a hb) hc, gm11_xorB h3a hb]
    calc (gm13 (gm2 a) ^^^ gm13 (gm3 b) ^^^ gm13 c ^^^ gm13 d) ^^^
          (gm9 a ^^^ gm9 (gm2 b) ^^^ gm9 (gm3 c) ^^^ gm9 d) ^^^
          (gm14 a ^^^ gm14 b ^^^ gm14 (gm2 c) ^^^ gm14 (gm3 d)) ^^^
          (gm11 (gm3 a) ^^^ gm11 b ^^^ gm11 c ^^^ gm11 (gm2 d))
        = (gm14 a ^^^ gm11 (gm3 a) ^^^ gm13 (gm2 a) ^^^ gm9 a) ^^^
          ((gm14 b ^^^ gm11 b ^^^ gm13 (gm3 b) ^^^ gm9 (gm2 b)) ^^^
           ((gm14 (gm2 c) ^^^ gm11 c ^^^ gm13 c ^^^ gm9 (gm3 c)) ^^^
            (gm14 (gm3 d) ^^^ gm11 (gm2 d) ^^^ gm13 d ^^^ gm9 d))) := by
          simp only [Nat.xor_assoc, Nat.xor_comm, xor_lcomm]
      _ = c := by rw [coeffZ2 a ha, coeffZ3 b hb, coeffD c hc, coeffZ1 d hd]; simp
  · rw [gm11_xorB (xorB_lt (xorB_lt h2a h3b) hc) hd,
      gm11_xorB (xorB_lt h2a h3b) hc, gm11_xorB h2a h3b,
      gm13_xorB (xorB_lt (xorB_lt ha h2b) h3c) hd,
      gm13_xorB (xorB_lt ha h2b) h3c, gm13_xorB ha h2b,
      gm9_xorB (xorB_lt (xorB_lt ha hb) h2c) h3d,
      gm9_xorB (xorB_lt ha hb) h2c, gm9_xorB ha hb,
      gm14_xorB (xorB_lt (xorB_lt h3a hb) hc) h2d,
      gm14_xorB (xorB_lt h3a hb) hc, gm14_xorB h3a hb]
    calc (gm11 (gm2 a) ^^^ gm11 (gm3 b) ^^^ gm11 c ^^^ gm11 d) ^^^
          (gm13 a ^^^ gm13 (gm2 b) ^^^ gm13 (gm3 c) ^^^ gm13 d) ^^^
          (gm9 a ^^^ gm9 b ^^^ gm9 (gm2 c) ^^^ gm9 (gm3 d)) ^^^
          (gm14 (gm3 a) ^^^ gm14 b ^^^ gm14 c ^^^ gm14 (gm2 d))
        = (gm14 (gm3 a) ^^^ gm11 (gm2 a) ^^^ gm13 a ^^^ gm9 a) ^^^
          ((gm14 b ^^^ gm11 (gm3 b) ^^^ gm13 (gm2 b) ^^^ gm9 b) ^^^
           ((gm14 c ^^^ gm11 c ^^^ gm13 (gm3 c) ^^^ gm9 (gm2 c)) ^^^
            (gm14 (gm2 d) ^^^ gm11 d ^^^ gm13 d ^^^ gm9 (gm3 d)))) := by
          simp only [Nat.xor_assoc, Nat.xor_comm, xor_lcomm]
      _ = d := by rw [coeffZ1 a ha, coeffZ2 b hb, coeffZ3 c hc, coeffD d hd]; simp

set_option maxRecDepth 100000 in
theorem isb_sb : ∀ b < 256, isb (sb b) = b := by decide

theorem nth_lt (l : List Nat) (h : ∀ x ∈ l, x < 256) : ∀ i, nth l i < 256 := by
  intro i
  induction l generalizing i with
  | nil => simp [nth]
  | cons x rest ih =>
      match i with
      | 0 => exact h x (List.mem_cons_self x rest)
      | j + 1 => exact ih (fun y hy => h y (List.mem_cons_of_mem x hy)) j

set_option maxRecDepth 100000 in
theorem sb_lt (b : Nat) : sb b < 256 := nth_lt sboxT (by decide) b

theorem invShiftR_shiftR (s : B16) : invShiftR (shiftR s) = s := rfl

theorem addB_addB (k s : B16) : addB k (addB k s) = s := by
  simp [addB, Nat.xor_cancel_right]

theorem invSubB_subB (s : B16) (h : s.Valid) : invSubB (subB s) = s := by
  obtain ⟨h0, h1, h2, h3, h4, h5, h6, h7, h8, h9, h10, h11, h12, h13, h14, h15⟩ := h
  simp only [subB, invSubB]
  rw [isb_sb _ h0, isb_sb _ h1, isb_sb _ h2, isb_sb _ h3, isb_sb _ h4, isb_sb _ h5,
    isb_sb _ h6, isb_sb _ h7, isb_sb _ h8, isb_sb _ h9, isb_sb _ h10, isb_sb _ h11,
    isb_sb _ h12, isb_sb _ h13, isb_sb _ h14, isb_sb _ h15]

theorem invMixC_mixC (s : B16) (h : s.Valid) : invMixC (mixC s) = s := by
  obtain ⟨h0, h1, h2, h3, h4, h5, h6, h7, h8, h9, h10, h11, h12, h13, h14, h15⟩ := h
  calc invMixC (mixC s)
      = ofCols (invMixColumn (mixColumn (s.b0, s.b1, s.b2, s.b3)),
          invMixColumn (mixColumn (s.b4, s.b5, s.b6, s.b7)),
          invMixColumn (mixColumn (s.b8, s.b9, s.b10, s.b11)),
          invMixColumn (mixColumn (s.b12, s.b13, s.b14, s.b15))) := rfl
    _ = s := by
        rw [invMix_mix s.b0 s.b1 s.b2 s.b3 h0 h1 h2 h3,
          invMix_mix s.b4 s.b5 s.b6 s.b7 h4 h5 h6 h7,
          invMix_mix s.b8 s.b9 s.b10 s.b11 h8 h9 h10 h11,
          invMix_mix s.b12 s.b13 s.b14 s.b15 h12 h13 h14 h15]
        rfl

theorem subB_valid (s : B16) : (subB s).Valid :=
  ⟨sb_lt _, sb_lt _, sb_lt _, sb_lt _, sb_lt _, sb_lt _, sb_lt _, sb_lt _,
   sb_lt _, sb_lt _, sb_lt _, sb_lt _, sb_lt _, sb_lt _, sb_lt _, sb_lt _⟩

theorem shiftR_valid (s : B16) (h : s.Valid) : (shiftR s).Valid := by
  obtain ⟨h0, h1, h2, h3, h4, h5, h6, h7, h8, h9, h10, h11, h12, h13, h14, h15⟩ := h
  exact ⟨h0, h5, h10, h15, h4, h9, h14, h3, h8, h13, h2, h7, h12, h1, h6, h11⟩

theorem mixColumn_comp_lt (a b c d : Nat) (ha : a < 256) (hb : b < 256) (hc : c < 256)
    (hd : d < 256) :
    gm2 a ^^^ gm3 b ^^^ c ^^^ d < 256 ∧ a ^^^ gm2 b ^^^ gm3 c ^^^ d < 256 ∧
    a ^^^ b ^^^ gm2 c ^^^ gm3 d < 256 ∧ gm3 a ^^^ b ^^^ c ^^^ gm2 d < 256 :=
  ⟨xorB_lt (xorB_lt (xorB_lt (gm2_lt a ha) (gm3_lt b hb)) hc) hd,
   xorB_lt (xorB_lt (xorB_lt ha (gm2_lt b hb)) (gm3_lt c hc)) hd,
   xorB_lt (xorB_lt (xorB_lt ha hb) (gm2_lt c hc)) (gm3_lt d hd),
   xorB_lt (xorB_lt (xorB_lt (gm3_lt a ha) hb) hc) (gm2_lt d hd)⟩

theorem mixC_valid (s : B16) (h : s.Valid) : (mixC s).Valid := by
  obtain ⟨h0, h1, h2, h3, h4, h5, h6, h7, h8, h9, h10, h11, h12, h13, h14, h15⟩ := h
  obtain ⟨a0, a1, a2, a3⟩ := mixColumn_comp_lt s.b0 s.b1 s.b2 s.b3 h0 h1 h2 h3
  obtain ⟨b0, b1, b2, b3⟩ := mixColumn_comp_lt s.b4 s.b5 s.b6 s.b7 h4 h5 h6 h7
  obtain ⟨c0, c1, c2, c3⟩ := mixColumn_comp_lt s.b8 s.b9 s.b10 s.b11 h8 h9 h10 h11
  obtain ⟨d0, d1, d2, d3⟩ := mixColumn_comp_lt s.b12 s.b13 s.b14 s.b15 h12 h13 h14 h15
  exact ⟨a0, a1, a2, a3, b0, b1, b2, b3, c0, c1, c2, c3, d0, d1, d2, d3⟩

theorem addB_valid (k s : B16) (hk : k.Valid) (hs : s.Valid) : (addB k s).Valid := by
  obtain ⟨k0, k1, k2, k3, k4, k5, k6, k7, k8, k9, k10, k11, k12, k13, k14, k15⟩ := hk
  obtain ⟨h0, h1, h2, h3, h4, h5, h6, h7, h8, h9, h10, h11, h12, h13, h14, h15⟩ := hs
  exact ⟨xorB_lt h0 k0, xorB_lt h1 k1, xorB_lt h2 k2, xorB_lt h3 k3,
    xorB_lt h4 k4, xorB_lt h5 k5, xorB_lt h6 k6, xorB_lt h7 k7,
    xorB_lt h8 k8, xorB_lt h9 k9, xorB_lt h10 k10, xorB_lt h11 k11,
    xorB_lt h12 k12, xorB_lt h13 k13, xorB_lt h14 k14, xorB_lt h15 k15⟩

theorem aesRound_valid (k s : B16) (hk : k.Valid) : (aesRound k s).Valid :=
  addB_valid k _ hk (mixC_valid _ (shiftR_valid _ (subB_valid s)))

theorem step_inv (k s : B16) (hk : k.Valid) (hs : s.Valid) :
    invAesRound k (aesRound k s) = s := by
  unfold invAesRound aesRound
  rw [addB_addB k (mixC (shiftR (subB s))),
    invMixC_mixC _ (shiftR_valid _ (subB_valid s)),
    invShiftR_shiftR, invSubB_subB s hs]

theorem foldl_valid (mid : List B16) (s : B16) (hs : s.Valid) (hm : ∀ k ∈ mid, k.Valid) :
    (mid.foldl (fun st k => aesRound k st) s).Valid := by
  induction mid generalizing s with
  | nil => exact hs
  | cons k rest ih =>
      exact ih (aesRound k s) (aesRound_valid k s (hm k (List.mem_cons_self k rest)))
        (fun k2 h2 => hm k2 (List.mem_cons_of_mem k h2))

theorem foldr_foldl_inv (mid : List B16) (s : B16) (hs : s.Valid) (hm : ∀ k ∈ mid, k.Valid) :
    mid.foldr (fun k st => invAesRound k st)
      (mid.foldl (fun st k => aesRound k st) s) = s := by
  induction mid generalizing s with
  | nil => rfl
  | cons k rest ih =>
      simp only [List.foldl_cons, List.foldr_cons]
      rw [ih (aesRound k s) (aesRound_valid k s (hm k (List.mem_cons_self k rest)))
        (fun k2 h2 => hm k2 (List.mem_cons_of_mem k h2))]
      exact step_inv k s (hm k (List.mem_cons_self k rest)) hs

theorem decWith_encWith (k0 : B16) (mid : List B16) (kl : B16) (s : B16)
    (h0 : k0.Valid) (hm : ∀ k ∈ mid, k.Valid) (hs : s.Valid) :
    decWith k0 mid kl (encWith k0 mid kl s) = s := by
  unfold encWith decWith
  rw [addB_addB kl, invShiftR_shiftR,
    invSubB_subB _ (foldl_valid mid (addB k0 s) (addB_valid k0 s h0 hs) hm),
    foldr_foldl_inv mid (addB k0 s) (addB_valid k0 s h0 hs) hm, addB_addB k0 s]

set_option maxRecDepth 100000 in
/-- FIPS-197 appendix B: the AES-128 block cipher on the standard key and
plaintext produces the standard ciphertext (bytes written in decimal). -/
theorem aes_fips197_vector :
    listOfBlock (encWith
      ((roundKeysOf [0, 1, 2, 3, 4, 5, 6, 7, 8, 9, 10, 11, 12, 13, 14, 15]).headD default16)
      (((roundKeysOf [0, 1, 2, 3, 4, 5, 6, 7, 8, 9, 10, 11, 12, 13, 14, 15]).drop 1).take 9)
      ((roundKeysOf [0, 1, 2, 3, 4, 5, 6, 7, 8, 9, 10, 11, 12, 13, 14, 15]).getD 10 default16)
      (blockOfList [0, 17, 34, 51, 68, 85, 102, 119, 136, 153, 170, 187, 204, 221, 238, 255])) =
    [105, 196, 224, 216, 106, 123, 4, 48, 216, 205, 183, 128, 112, 180, 197, 90] := by decide

set_option maxRecDepth 100000 in
/-- NIST SP 800-38A F.2.1 (CBC-AES128.Encrypt, first block): CBC encryption
of the standard plaintext block under the standard key and IV produces the
standard ciphertext block (bytes written in decimal). -/
theorem aes_cbc_sp800_38a_vector :
    ((cbcEncB
      ((roundKeysOf [43, 126, 21, 22, 40, 174, 210, 166, 171, 247, 21, 136, 9, 207, 79, 60]).headD default16)
      (((roundKeysOf [43, 126, 21, 22, 40, 174, 210, 166, 171, 247, 21, 136, 9, 207, 79, 60]).drop 1).take 9)
      ((roundKeysOf [43, 126, 21, 22, 40, 174, 210, 166, 171, 247, 21, 136, 9, 207, 79, 60]).getD 10 default16)
      (blockOfList [0, 1, 2, 3, 4, 5, 6, 7, 8, 9, 10, 11, 12, 13, 14, 15])
      [blockOfList [107, 193, 190, 226, 46, 64, 159, 150, 233, 61, 126, 17, 115, 147, 23, 42]]).map listOfBlock) =
    [[118, 73, 171, 172, 129, 25, 178, 70, 206, 233, 142, 155, 18, 233, 25, 125]] := by decide

theorem encWith_valid (k0 : B16) (mid : List B16) (kl : B16) (s : B16) (hl : kl.Valid) :
    (encWith k0 mid kl s).Valid :=
  addB_valid kl _ hl (shiftR_valid _ (subB_valid _))

theorem valid4_xorW (a b : Nat × Nat × Nat × Nat) (ha : valid4 a) (hb : valid4 b) :
    valid4 (xorW a b) :=
  ⟨xorB_lt ha.1 hb.1, xorB_lt ha.2.1 hb.2.1, xorB_lt ha.2.2.1 hb.2.2.1,
   xorB_lt ha.2.2.2 hb.2.2.2⟩

theorem valid4_subW (w : Nat × Nat × Nat × Nat) : valid4 (subW w) :=
  ⟨sb_lt _, sb_lt _, sb_lt _, sb_lt _⟩

theorem valid4_rotW (w : Nat × Nat × Nat × Nat) (h : valid4 w) : valid4 (rotW w) :=
  ⟨h.2.1, h.2.2.1, h.2.2.2, h.1⟩

set_option maxRecDepth 100000 in
theorem valid4_rconW (r : Nat) : valid4 (rconW r) := by
  refine ⟨nth_lt rconT (by decide) r, ?_, ?_, ?_⟩ <;>
    · show (0 : Nat) < 256
      decide

theorem valid4_nthW (ws : List (Nat × Nat × Nat × Nat)) (h : ∀ w ∈ ws, valid4 w) (i : Nat) :
    valid4 (nthW ws i) := by
  induction ws generalizing i with
  | nil => exact ⟨by simp [nthW], by simp [nthW], by simp [nthW], by simp [nthW]⟩
  | cons w rest ih =>
      match i with
      | 0 => exact h w (List.mem_cons_self w rest)
      | j + 1 => exact ih (fun y hy => h y (List.mem_cons_of_mem w hy)) j

theorem valid4_nextW (i : Nat) (ws : List (Nat × Nat × Nat × Nat))
    (h : ∀ w ∈ ws, valid4 w) : valid4 (nextW i ws) := by
  unfold nextW
  split
  · exact valid4_xorW _ _ (valid4_nthW ws h 3)
      (valid4_xorW _ _ (valid4_subW _) (valid4_rconW _))
  · exact valid4_xorW _ _ (valid4_nthW ws h 3) (valid4_nthW ws h 0)

theorem expandW_valid : ∀ (n i : Nat) (ws : List (Nat × Nat × Nat × Nat)),
    (∀ w ∈ ws, valid4 w) → ∀ w ∈ expandW n i ws, valid4 w
  | 0, _, ws => fun h => h
  | n + 1, i, ws => fun h => by
      refine expandW_valid n (i + 1) (nextW i ws :: ws) ?_
      intro w hw
      rcases List.mem_cons.mp hw with hw | hw
      · subst hw; exact valid4_nextW i ws h
      · exact h w hw

theorem keyWordsOf_valid (key : List Nat) (hk : ∀ b ∈ key, b < 256) :
    ∀ w ∈ keyWordsOf key, valid4 w := by
  intro w hw
  unfold keyWordsOf at hw
  rw [List.mem_reverse] at hw
  refine expandW_valid 40 4 _ ?_ w hw
  intro w2 hw2
  have hn := nth_lt key hk
  simp only [List.mem_cons, List.not_mem_nil, or_false] at hw2
  rcases hw2 with h2 | h2 | h2 | h2 <;> subst h2 <;> exact ⟨hn _, hn _, hn _, hn _⟩

theorem b16OfW_valid (w0 w1 w2 w3 : Nat × Nat × Nat × Nat) (h0 : valid4 w0)
    (h1 : valid4 w1) (h2 : valid4 w2) (h3 : valid4 w3) : (b16OfW w0 w1 w2 w3).Valid :=
  ⟨h0.1, h0.2.1, h0.2.2.1, h0.2.2.2, h1.1, h1.2.1, h1.2.2.1, h1.2.2.2,
   h2.1, h2.2.1, h2.2.2.1, h2.2.2.2, h3.1, h3.2.1, h3.2.2.1, h3.2.2.2⟩

theorem keysFrom_valid : ∀ (ws : List (Nat × Nat × Nat × Nat)),
    (∀ w ∈ ws, valid4 w) → ∀ b ∈ keysFrom ws, b.Valid
  | [] => by intro _ b hb; simp [keysFrom] at hb
  | [_] => by intro _ b hb; simp [keysFrom] at hb
  | [_, _] => by intro _ b hb; simp [keysFrom] at hb
  | [_, _, _] => by intro _ b hb; simp [keysFrom] at hb
  | w0 :: w1 :: w2 :: w3 :: rest => by
      intro h b hb
      rcases List.mem_cons.mp hb with hb | hb
      · subst hb
        exact b16OfW_valid w0 w1 w2 w3 (h w0 (by simp)) (h w1 (by simp)) (h w2 (by simp))
          (h w3 (by simp))
      · exact keysFrom_valid rest (fun w hw => h w (by simp [hw])) b hb

theorem roundKeysOf_valid (key : List Nat) (hk : ∀ b ∈ key, b < 256) :
    ∀ b ∈ roundKeysOf key, b.Valid :=
  keysFrom_valid _ (keyWordsOf_valid key hk)

theorem default16_valid : default16.Valid := by
  refine ⟨?_, ?_, ?_, ?_, ?_, ?_, ?_, ?_, ?_, ?_, ?_, ?_, ?_, ?_, ?_, ?_⟩ <;> decide

theorem getD_B16_valid (l : List B16) (h : ∀ x ∈ l, x.Valid) (i : Nat) :
    (l.getD i default16).Valid := by
  induction l generalizing i with
  | nil => simpa [List.getD] using default16_valid
  | cons x rest ih =>
      match i with
      | 0 => exact h x (List.mem_cons_self x rest)
      | j + 1 => exact ih (fun y hy => h y (List.mem_cons_of_mem x hy)) j

theorem headD_B16_valid (l : List B16) (h : ∀ x ∈ l, x.Valid) :
    (l.headD default16).Valid := by
  cases l with
  | nil => exact default16_valid
  | cons x rest => exact h x (List.mem_cons_self x rest)

theorem cbcDecB_cbcEncB (k0 : B16) (mid : List B16) (kl : B16) (h0 : k0.Valid)
    (hm : ∀ k ∈ mid, k.Valid) (hl : kl.Valid) :
    ∀ (ps : List B16) (prev : B16), prev.Valid → (∀ p ∈ ps, p.Valid) →
      cbcDecB k0 mid kl prev (cbcEncB k0 mid kl prev ps) = ps := by
  intro ps
  induction ps with
  | nil => intro prev _ _; rfl
  | cons p rest ih =>
      intro prev hprev hps
      have hp : p.Valid := hps p (List.mem_cons_self p rest)
      have hpp : (addB prev p).Valid := addB_valid prev p hprev hp
      simp only [cbcEncB, cbcDecB]
      rw [decWith_encWith k0 mid kl (addB prev p) h0 hm hpp, addB_addB prev p,
        ih (encWith k0 mid kl (addB prev p)) (encWith_valid k0 mid kl _ hl)
          (fun q hq => hps q (List.mem_cons_of_mem p hq))]

theorem cbcEncB_valid (k0 : B16) (mid : List B16) (kl : B16) (hl : kl.Valid) :
    ∀ (ps : List B16) (prev : B16), ∀ c ∈ cbcEncB k0 mid kl prev ps, c.Valid := by
  intro ps
  induction ps with
  | nil => intro prev c hc; simp [cbcEncB] at hc
  | cons p rest ih =>
      intro prev c hc
      simp only [cbcEncB, List.mem_cons] at hc
      rcases hc with hc | hc
      · subst hc; exact encWith_valid k0 mid kl _ hl
      · exact ih _ c hc

theorem chunks16F_nil : ∀ fuel, chunks16F fuel [] = [] := by
  intro fuel; cases fuel <;> rfl

theorem chunks16F_flatten : ∀ (blocks : List (List Nat)) (fuel : Nat),
    (∀ b ∈ blocks, b.length = 16) → blocks.length ≤ fuel →
    chunks16F fuel blocks.flatten = blocks := by
  intro blocks
  induction blocks with
  | nil => intro fuel _ _; simp [chunks16F_nil]
  | cons b rest ih =>
      intro fuel hlen hfuel
      match fuel with
      | 0 => simp at hfuel
      | f + 1 =>
          have hb : b.length = 16 := hlen b (List.mem_cons_self b rest)
          match b, hb with
          | x :: xs, hb => ?_
          case _ =>
            simp only [List.flatten_cons, List.cons_append]
            show ((x :: xs) ++ rest.flatten).take 16 :: chunks16F f (((x :: xs) ++ rest.flatten).drop 16) = (x :: xs) :: rest
            rw [show (16 : Nat) = (x :: xs).length from hb.symm, List.take_left, List.drop_left]
            rw [ih f (fun b2 h2 => hlen b2 (List.mem_cons_of_mem _ h2)) (by simpa using hfuel)]

theorem chunks16_spec : ∀ (n fuel : Nat) (bs : List Nat), bs.length = 16 * n → n ≤ fuel →
    (∀ c ∈ chunks16F fuel bs, c.length = 16) ∧ (chunks16F fuel bs).flatten = bs := by
  intro n
  induction n with
  | zero =>
      intro fuel bs h _
      have : bs = [] := by
        rw [← List.length_eq_zero]
        omega
      subst this
      simp [chunks16F_nil]
  | succ n ih =>
      intro fuel bs h hf
      match fuel with
      | 0 => omega
      | f + 1 =>
          match bs with
          | [] => simp at h
          | x :: xs =>
              show (∀ c ∈ ((x :: xs).take 16 :: chunks16F f ((x :: xs).drop 16)), c.length = 16) ∧
                ((x :: xs).take 16 :: chunks16F f ((x :: xs).drop 16)).flatten = x :: xs
              have hdl : ((x :: xs).drop 16).length = 16 * n := by
                rw [List.length_drop, h]
                omega
              obtain ⟨ih1, ih2⟩ := ih f ((x :: xs).drop 16) hdl (by omega)
              constructor
              · intro c hc
                rcases List.mem_cons.mp hc with hc | hc
                · subst hc
                  rw [List.length_take, h]
                  omega
                · exact ih1 c hc
              · simp only [List.flatten_cons, ih2]
                exact List.take_append_drop 16 (x :: xs)

theorem listOfBlock_blockOfList (l : List Nat) (h : l.length = 16) :
    listOfBlock (blockOfList l) = l := by
  apply List.ext_getElem (by simp [listOfBlock, blockOfList, h])
  intro i h1 h2
  have h16 : i < 16 := by simpa [listOfBlock] using h1
  interval_cases i <;>
    simp [listOfBlock, blockOfList, nth, List.getD_eq_getElem?_getD,
      List.getElem?_eq_getElem h2]

theorem length_flatten_map (cs : List B16) :
    ((cs.map listOfBlock).flatten).length = 16 * cs.length := by
  induction cs with
  | nil => simp
  | cons c rest ih =>
      simp only [List.map_cons, List.flatten_cons, List.length_append, ih, List.length_cons]
      show (listOfBlock c).length + 16 * rest.length = 16 * (rest.length + 1)
      show 16 + 16 * rest.length = 16 * (rest.length + 1)
      omega

theorem map_bol_lob (cs : List B16) : (cs.map listOfBlock).map blockOfList = cs := by
  induction cs with
  | nil => rfl
  | cons c rest ih => simp only [List.map_cons, ih]; rfl

theorem mem_map_listOfBlock_length (cs : List B16) :
    ∀ b ∈ cs.map listOfBlock, b.length = 16 := by
  intro b hb
  rw [List.mem_map] at hb
  obtain ⟨c, _, rfl⟩ := hb
  rfl

theorem mem_flatten_map_lt (cs : List B16) (h : ∀ c ∈ cs, c.Valid) :
    ∀ b ∈ (cs.map listOfBlock).flatten, b < 256 := by
  intro b hb
  rw [List.mem_flatten] at hb
  obtain ⟨l, hl, hbl⟩ := hb
  rw [List.mem_map] at hl
  obtain ⟨c, hc, rfl⟩ := hl
  obtain ⟨h0, h1, h2, h3, h4, h5, h6, h7, h8, h9, h10, h11, h12, h13, h14, h15⟩ := h c hc
  simp only [listOfBlock, List.mem_cons, List.not_mem_nil, or_false] at hbl
  rcases hbl with rfl | rfl | rfl | rfl | rfl | rfl | rfl | rfl | rfl | rfl | rfl | rfl | rfl | rfl | rfl | rfl <;>
    assumption

theorem blockOfList_valid (l : List Nat) (h : ∀ b ∈ l, b < 256) : (blockOfList l).Valid := by
  have hn := nth_lt l h
  exact ⟨hn 0, hn 1, hn 2, hn 3, hn 4, hn 5, hn 6, hn 7, hn 8, hn 9, hn 10, hn 11,
    hn 12, hn 13, hn 14, hn 15⟩

theorem pad16_length (bs : List Nat) :
    (pad16 bs).length = bs.length + (16 - bs.length % 16) := by
  simp [pad16]

theorem pad16_lt (bs : List Nat) (h : ∀ b ∈ bs, b < 256) : ∀ b ∈ pad16 bs, b < 256 := by
  intro b hb
  rcases List.mem_append.mp hb with hb | hb
  · exact h b hb
  · rw [List.eq_of_mem_replicate hb]
    omega

theorem pad16_len_mod (bs : List Nat) : (pad16 bs).length % 16 = 0 := by
  rw [pad16_length]
  omega

theorem unpad16_pad16 (bs : List Nat) : unpad16 (pad16 bs) = some bs := by
  have hlen := pad16_length bs
  have hk1 : 1 ≤ 16 - bs.length % 16 := by omega
  have hk16 : 16 - bs.length % 16 ≤ 16 := by omega
  have hlast : (pad16 bs).getD ((pad16 bs).length - 1) 0 = 16 - bs.length % 16 := by
    unfold pad16
    rw [List.getD_append_right]
    · rw [show (bs ++ List.replicate (16 - bs.length % 16) (16 - bs.length % 16)).length - 1 - bs.length = 16 - bs.length % 16 - 1 by simp only [List.length_append, List.length_replicate]; omega]
      have hi : 16 - bs.length % 16 - 1 < 16 - bs.length % 16 := by omega
      simp [List.getD_eq_getElem?_getD, List.getElem?_replicate, hi]
    · simp only [List.length_append, List.length_replicate] at hlen ⊢
      omega
  unfold unpad16
  rw [if_pos ⟨pad16_len_mod bs, by omega⟩, hlast]
  rw [if_pos]
  · congr 1
    rw [show (pad16 bs).length - (16 - bs.length % 16) = bs.length by omega]
    unfold pad16
    exact List.take_left bs _
  · refine ⟨hk1, hk16, by omega, ?_⟩
    rw [show (pad16 bs).length - (16 - bs.length % 16) = bs.length by omega]
    unfold pad16
    rw [List.drop_left]
    simp [List.all_eq_true, List.mem_replicate]

set_option maxRecDepth 100000 in
theorem b64v_b64c : ∀ n < 64, b64v (b64c n) = some n := by decide

set_option maxRecDepth 100000 in
theorem b64c_ne_pad : ∀ n < 64, (b64c n == ('=' : Char)) = false := by decide

theorem b64_round : ∀ (bs : List Nat), (∀ x ∈ bs, x < 256) → b64dec (b64enc bs) = some bs
  | [] => fun _ => by decide
  | [a] => fun h => by
      have ha : a < 256 := h a (by simp)
      have v1 : a / 4 < 64 := by omega
      have v2 : a % 4 * 16 < 64 := by omega
      show b64dec [b64c (a / 4), b64c (a % 4 * 16), ('=' : Char), ('=' : Char)] = some [a]
      simp only [b64dec, b64v_b64c _ v1, b64v_b64c _ v2, beq_self_eq_true, if_true, and_self,
        if_pos, Option.some.injEq, List.cons.injEq, and_true]
      omega
  | [a, b] => fun h => by
      have ha : a < 256 := h a (by simp)
      have hb : b < 256 := h b (by simp)
      have v1 : a / 4 < 64 := by omega
      have v2 : a % 4 * 16 + b / 16 < 64 := by omega
      have v3 : b % 16 * 4 < 64 := by omega
      show b64dec [b64c (a / 4), b64c (a % 4 * 16 + b / 16), b64c (b % 16 * 4), ('=' : Char)] =
        some [a, b]
      simp only [b64dec, b64v_b64c _ v1, b64v_b64c _ v2, b64v_b64c _ v3, b64c_ne_pad _ v3,
        Bool.false_eq_true, if_false, beq_self_eq_true, if_true, Option.some.injEq,
        List.cons.injEq, and_true]
      constructor
      · omega
      · omega
  | a :: b :: c :: d :: rest => fun h => by
      have ih := b64_round (d :: rest) (fun x hx => h x (by simp at hx ⊢; tauto))
      have ha : a < 256 := h a (by simp)
      have hb : b < 256 := h b (by simp)
      have hc : c < 256 := h c (by simp)
      have v1 : a / 4 < 64 := by omega
      have v2 : a % 4 * 16 + b / 16 < 64 := by omega
      have v3 : b % 16 * 4 + c / 64 < 64 := by omega
      have v4 : c % 64 < 64 := by omega
      show b64dec (b64c (a / 4) :: b64c (a % 4 * 16 + b / 16) :: b64c (b % 16 * 4 + c / 64) ::
        b64c (c % 64) :: b64enc (d :: rest)) = some (a :: b :: c :: d :: rest)
      simp only [b64dec, b64v_b64c _ v1, b64v_b64c _ v2, b64v_b64c _ v3, b64v_b64c _ v4,
        b64c_ne_pad _ v3, b64c_ne_pad _ v4, Bool.false_eq_true, if_false, ih,
        Option.some.injEq, List.cons.injEq, and_true]
      refine ⟨by omega, by omega, by omega⟩
  | [a, b, c] => fun h => by
      have ha : a < 256 := h a (by simp)
      have hb : b < 256 := h b (by simp)
      have hc : c < 256 := h c (by simp)
      have v1 : a / 4 < 64 := by omega
      have v2 : a % 4 * 16 + b / 16 < 64 := by omega
      have v3 : b % 16 * 4 + c / 64 < 64 := by omega
      have v4 : c % 64 < 64 := by omega
      show b64dec [b64c (a / 4), b64c (a % 4 * 16 + b / 16), b64c (b % 16 * 4 + c / 64),
        b64c (c % 64)] = some [a, b, c]
      simp only [b64dec, b64v_b64c _ v1, b64v_b64c _ v2, b64v_b64c _ v3, b64v_b64c _ v4,
        b64c_ne_pad _ v3, b64c_ne_pad _ v4, Bool.false_eq_true, if_false,
        Option.some.injEq, List.cons.injEq, and_true]
      refine ⟨by omega, by omega, by omega⟩

theorem data_mk (cs : List Char) : (String.mk cs).data = cs := rfl

theorem aes_round_trip (key iv msg : List Nat)
    (hkey : ∀ x ∈ key, x < 256) (hiv : ∀ x ∈ iv, x < 256) (hmsg : ∀ x ∈ msg, x < 256) :
    aes_decrypt key iv (aes_encrypt key iv msg) = some msg := by
  have hrk : ∀ b ∈ roundKeysOf key, b.Valid := roundKeysOf_valid key hkey
  have h0 : ((roundKeysOf key).headD default16).Valid := headD_B16_valid _ hrk
  have hl : ((roundKeysOf key).getD 10 default16).Valid := getD_B16_valid _ hrk 10
  have hmid : ∀ k ∈ ((roundKeysOf key).drop 1).take 9, k.Valid := fun k hk =>
    hrk k (List.mem_of_mem_drop (List.mem_of_mem_take hk))
  have hpadlt := pad16_lt msg hmsg
  have hpadmod := pad16_len_mod msg
  obtain ⟨hchunklen, hchunkflat⟩ := chunks16_spec ((pad16 msg).length / 16) (pad16 msg).length
    (pad16 msg) (by omega) (Nat.div_le_self _ _)
  have hpb : ∀ p ∈ (chunks16 (pad16 msg)).map blockOfList, p.Valid := by
    intro p hp
    rw [List.mem_map] at hp
    obtain ⟨chunk, hcm, rfl⟩ := hp
    refine blockOfList_valid chunk (fun x hx => hpadlt x ?_)
    rw [← hchunkflat]
    exact List.mem_flatten.mpr ⟨chunk, hcm, hx⟩
  have hcv : ∀ c ∈ cbcEncB ((roundKeysOf key).headD default16)
      (((roundKeysOf key).drop 1).take 9) ((roundKeysOf key).getD 10 default16)
      (blockOfList iv) ((chunks16 (pad16 msg)).map blockOfList), c.Valid :=
    cbcEncB_valid _ _ _ hl _ _
  have hctlt := mem_flatten_map_lt _ hcv
  have hctlen := length_flatten_map (cbcEncB ((roundKeysOf key).headD default16)
    (((roundKeysOf key).drop 1).take 9) ((roundKeysOf key).getD 10 default16)
    (blockOfList iv) ((chunks16 (pad16 msg)).map blockOfList))
  unfold aes_encrypt aes_decrypt
  rw [data_mk, b64_round _ hctlt]
  simp only [Option.some_bind]
  rw [if_pos (by omega)]
  rw [show chunks16 (((cbcEncB ((roundKeysOf key).headD default16)
      (((roundKeysOf key).drop 1).take 9) ((roundKeysOf key).getD 10 default16)
      (blockOfList iv) ((chunks16 (pad16 msg)).map blockOfList)).map listOfBlock).flatten) =
      (cbcEncB ((roundKeysOf key).headD default16)
      (((roundKeysOf key).drop 1).take 9) ((roundKeysOf key).getD 10 default16)
      (blockOfList iv) ((chunks16 (pad16 msg)).map blockOfList)).map listOfBlock from
    chunks16F_flatten _ _ (mem_map_listOfBlock_length _) (by rw [length_flatten_map]; simp; omega)]
  rw [map_bol_lob]
  rw [cbcDecB_cbcEncB _ _ _ h0 hmid hl _ (blockOfList iv) (blockOfList_valid iv hiv) hpb]
  have hchunklenC : ∀ c ∈ chunks16 (pad16 msg), c.length = 16 := hchunklen
  have hchunkflatC : (chunks16 (pad16 msg)).flatten = pad16 msg := hchunkflat
  have hlob : ((chunks16 (pad16 msg)).map blockOfList).map listOfBlock = chunks16 (pad16 msg) := by
    rw [List.map_map]
    have hcongr : ∀ chunk ∈ chunks16 (pad16 msg), (listOfBlock ∘ blockOfList) chunk = chunk :=
      fun chunk hc => listOfBlock_blockOfList chunk (hchunklenC chunk hc)
    calc (chunks16 (pad16 msg)).map (listOfBlock ∘ blockOfList)
        = (chunks16 (pad16 msg)).map id := List.map_congr_left hcongr
      _ = chunks16 (pad16 msg) := List.map_id _
  rw [hlob, hchunkflatC, unpad16_pad16]

theorem or_lt_256 {x y : Nat} (hx : x < 256) (hy : y < 256) : x ||| y < 256 :=
  Nat.or_lt_two_pow (n := 8) hx hy

theorem and_lt_256 (x y : Nat) (hy : y < 256) : x &&& y < 256 :=
  Nat.lt_of_le_of_lt Nat.and_le_right hy

theorem utf8Char_lt (c : Char) : ∀ b ∈ utf8Char c, b < 256 := by
  have hv : c.toNat < 0x110000 := by
    have h := c.valid
    rcases h with h | ⟨_, h⟩
    · exact Nat.lt_trans h (by omega)
    · exact h
  intro b hb
  unfold utf8Char at hb
  simp only [Nat.shiftRight_eq_div_pow] at hb
  split_ifs at hb with h1 h2 h3
  · simp only [List.mem_singleton] at hb
    omega
  · simp only [List.mem_cons, List.not_mem_nil, or_false] at hb
    rcases hb with rfl | rfl
    · exact or_lt_256 (by omega) (by omega)
    · exact or_lt_256 (by omega) (and_lt_256 _ _ (by omega))
  · simp only [List.mem_cons, List.not_mem_nil, or_false] at hb
    rcases hb with rfl | rfl | rfl
    · exact or_lt_256 (by omega) (by omega)
    · exact or_lt_256 (by omega) (and_lt_256 _ _ (by omega))
    · exact or_lt_256 (by omega) (and_lt_256 _ _ (by omega))
  · simp only [List.mem_cons, List.not_mem_nil, or_false] at hb
    rcases hb with rfl | rfl | rfl | rfl
    · exact or_lt_256 (by omega) (by omega)
    · exact or_lt_256 (by omega) (and_lt_256 _ _ (by omega))
    · exact or_lt_256 (by omega) (and_lt_256 _ _ (by omega))
    · exact or_lt_256 (by omega) (and_lt_256 _ _ (by omega))

theorem utf8Bytes_lt (s : String) : ∀ b ∈ utf8Bytes s, b < 256 := by
  intro b hb
  rw [utf8Bytes, List.mem_flatten] at hb
  obtain ⟨l, hl, hbl⟩ := hb
  rw [List.mem_map] at hl
  obtain ⟨c, _, rfl⟩ := hl
  exact utf8Char_lt c b hbl

/-! ## Claim theorems: the quota accountant -/

/-- C2, code bug witnessed at a concrete input.  The ten-second
reconciliation of `update_from_headers` reads the locally-registered value
at the `current_minute` key of the ten-seconds map (limits.py line 564)
instead of `current_ten_seconds`.  At local time 600000 ms (minute bucket
10, ten-seconds bucket 60), with the local ten-seconds counter at 3 and the
server reporting 0, the wrongly-read registered value (0) agrees with the
header, so no overwrite happens and the counter at the current ten-seconds
bucket stays 3 instead of becoming 0. -/
theorem c2_ten_second_reconciliation_bug :
    (update_from_headers C2state C2headers 600000).1 = UFHResult.okU ∧
    hgetD (normalize_headers C2headers) ("x-mbx-order-count-10s") 0 = 0 ∧
    ((update_from_headers C2state C2headers 600000).2).ten_seconds_orders_counts = [(60, 3)] ∧
    dget ((update_from_headers C2state C2headers 600000).2).ten_seconds_orders_counts
      (_get_current_ten_seconds C2state 600000) = 3 := by
  decide

/-- C3, counterexample.  The claim's allowlist includes `x-mbx-traceid`,
but the source's `expected_headers` set does not: a response carrying only
`x-mbx-traceid` raises the unknown-header error. -/
theorem c3_traceid_counterexample :
    (update_from_headers baseRL ([(("x-mbx-traceid" : String), (7 : Int))]) 0).1 =
      UFHResult.raisedUnknown := by
  decide

/-- C3, amended.  `update_from_headers` raises the unknown-header error
exactly when the response headers contain a header whose lowered name starts
with `x-mbx-` and lies outside the five-element allowlist x-mbx-uuid,
x-mbx-used-weight, x-mbx-used-weight-1m, x-mbx-order-count-10s,
x-mbx-order-count-1d; `x-mbx-traceid` is not allowlisted and raises too. -/
theorem c3_unknown_header_amended (s : RL) (t : Int) (headers : List (String × Int)) :
    (update_from_headers s headers t).1 = UFHResult.raisedUnknown ↔
      ∃ kv ∈ headers, startsW (lowerStr kv.1) ("x-mbx-") = true ∧
        expected_headers.contains (lowerStr kv.1) = false := by
  rw [ufh_fst, ← verify_iff headers]
  by_cases h : verify_unknown_headers (normalize_headers headers) = true
  · simp [h]
  · simp [h]

/-- C6, counterexample.  With the accountant saturated in the minute-weight
window, the clock-sync refresh is bypassed and the offset is kept, but the
window counters are not all left unchanged: the failed weight-1 admission
probe has already advanced the per-second raw counter. -/
theorem c6_refresh_counterexample :
    (can_make_request S6state 1 false 0).1 = CMOutcome.ok false ∧
    (_update_server_time_offset S6state 0 777).1 = UOutcome.bypassed ∧
    ((_update_server_time_offset S6state 0 777).2).seconds_counts ≠ S6state.seconds_counts := by
  decide

/-- C6, amended.  When the weight-1 admission probe of the clock-sync
refresh fails, the refresh returns the bypass without updating the offset,
and neither the minute-weight window nor the ten-second order window is
charged (so the refresh's weight is only charged when admission succeeds);
however the raw-count windows checked before the failing check may have been
advanced by the probe's partial commit. -/
theorem c6_refresh_amended (s : RL) (t server_ms : Int)
    (h : (can_make_request s 1 false t).1 = CMOutcome.ok false) :
    (_update_server_time_offset s t server_ms).1 = UOutcome.bypassed ∧
    ((_update_server_time_offset s t server_ms).2).server_time_offset = s.server_time_offset ∧
    ((_update_server_time_offset s t server_ms).2).minutes_weights = s.minutes_weights ∧
    ((_update_server_time_offset s t server_ms).2).ten_seconds_orders_counts =
      s.ten_seconds_orders_counts := by
  have hoff := cmr_offset s 1 false t
  have hw := cmr_weights_cases s 1 false t
  have hts := cmr_tsoc_false s 1 t
  unfold _update_server_time_offset
  rcases hcm : can_make_request s 1 false t with ⟨o, s1⟩
  rw [hcm] at h hoff hts hw
  have ho : o = CMOutcome.ok false := h
  subst ho
  rcases hw with hw | hne
  · exact ⟨rfl, hoff, hw, hts⟩
  · exact absurd rfl hne

/-- C6, witness: the amended statement discharged at the concrete saturated
state of scenario S6. -/
theorem c6_refresh_amended_witness :
    (_update_server_time_offset S6state 0 777).1 = UOutcome.bypassed ∧
    ((_update_server_time_offset S6state 0 777).2).server_time_offset = S6state.server_time_offset ∧
    ((_update_server_time_offset S6state 0 777).2).minutes_weights = S6state.minutes_weights ∧
    ((_update_server_time_offset S6state 0 777).2).ten_seconds_orders_counts =
      S6state.ten_seconds_orders_counts :=
  c6_refresh_amended S6state 0 777 (by decide)

/-- C7, code bug witnessed at a concrete input.  `_clean_counters` slices
`dict.keys()` (limits.py line 442), which raises `TypeError` in Python 3, so
the pruning the claim (and the method's own docstring) describes never
happens; an admission that crosses the housekeeping watermark propagates the
error instead of pruning to the three most recent keys. -/
theorem c7_clean_counters_bug :
    clean_counters C7state = none ∧
    (can_make_request C7state 1 false 600000).1 = CMOutcome.typeError := by
  exact ⟨rfl, by decide⟩

/-- C10, confirmed.  A non-order admission never touches the ten-second
order counter map, whether it succeeds, fails, or propagates the
housekeeping error (whose raise precedes any rebuild of this map). -/
theorem c10_ten_seconds_frame (s : RL) (weight t : Int) :
    ((can_make_request s weight false t).2).ten_seconds_orders_counts =
      s.ten_seconds_orders_counts :=
  cmr_tsoc_false s weight t

/-! ## Claim theorems: the request signer -/

theorem count_key_append (k : String) (xs ys : List (String × String)) :
    count_key k (xs ++ ys) = count_key k xs + count_key k ys := by
  simp [count_key, List.filter_append]

theorem count_key_single_ne (k k' : String) (v : String) (h : (k' == k) = false) :
    count_key k [(k', v)] = 0 := by
  simp [count_key, h]

theorem count_key_single_eq (k k' : String) (v : String) (h : (k' == k) = true) :
    count_key k [(k', v)] = 1 := by
  simp [count_key, h]

theorem count_key_pos_iff_any (k : String) (params : List (String × String)) :
    params.any (fun kv => kv.1 == k) = true ↔ count_key k params ≠ 0 := by
  rw [List.any_eq_true]
  unfold count_key
  constructor
  · rintro ⟨kv, hm, hk⟩ hlen
    rw [List.length_eq_zero] at hlen
    have := List.filter_eq_nil_iff.mp hlen kv hm
    exact this hk
  · intro hne
    by_contra hno
    push_neg at hno
    apply hne
    rw [List.length_eq_zero]
    exact List.filter_eq_nil_iff.mpr (fun kv hm => by simpa using hno kv hm)

set_option maxRecDepth 100000 in
/-- C4, confirmed.  `sign_params` (with no timestamp added) serializes the
parameters as `key=value` pairs joined with `&` in the exact input order and
appends the lowercase-hex HMAC-SHA256 of that string's UTF-8 bytes, keyed by
the secret's UTF-8 bytes, as the final `(signature, hex)` pair; on the fixed
secret and fixed ordered parameters of scenario S2 the serialized string is
the Binance example string and the signature equals
c8db56825ae71d6d79447849e617115f4a920fa2acdcab2b053c4b2838bd6b71. -/
theorem c4_signature_canonical :
    (∀ (secret : String) (params : List (String × String)) (tsf sigf : String) (off lm : Int),
      sign_params secret params false tsf sigf off lm =
        params ++ [(sigf, hexdigest (hmac_sha256 (utf8Bytes secret) (utf8Bytes (query_string params))))]) ∧
    query_string S2params =
      "symbol=LTCBTC&side=BUY&type=LIMIT&timeInForce=GTC&quantity=1&price=0.1&recvWindow=5000&timestamp=1499827319559" ∧
    sign_params S2secret S2params false ("timestamp") ("signature") 0 0 =
      S2params ++ [(("signature"), ("c8db56825ae71d6d79447849e617115f4a920fa2acdcab2b053c4b2838bd6b71"))] := by
  refine ⟨fun secret params tsf sigf off lm => rfl, by decide, by decide⟩

/-- C8, counterexample.  `sign_params` with `add_timestamp = true` appends a
timestamp pair unconditionally: on an input that already carries a
`timestamp` entry the signer emits a second one (two `timestamp` pairs in
the output), so the claim's "only when the input list contains no timestamp
entry" fails for the signer itself. -/
theorem c8_signer_counterexample :
    count_key ("timestamp")
      (sign_params ("k") ([(("timestamp" : String), ("5" : String))]) true ("timestamp")
        ("signature") 0 99) = 2 := by
  decide

/-- C8, amended.  The signer itself appends a timestamp pair exactly when
`add_timestamp` is set, regardless of whether one is present; the
deduplication lives in the caller `sign_request`, which scans the input for
a `timestamp` key and passes `add_timestamp = not timestamped`, so through
`sign_request` a parameter list that already carries a timestamp gains no
second one, and one without gains exactly one. -/
theorem c8_timestamp_amended :
    (∀ (secret : String) (params : List (String × String)) (off lm : Int),
      count_key ("timestamp") (sign_params secret params true ("timestamp") ("signature") off lm) =
        count_key ("timestamp") params + 1) ∧
    (∀ (secret : String) (params : List (String × String)) (off lm : Int),
      count_key ("timestamp") (sign_request secret params off lm) =
        if count_key ("timestamp") params = 0 then 1 else count_key ("timestamp") params) := by
  have hsig : ((("signature" : String)) == (("timestamp" : String))) = false := by decide
  have hts : ((("timestamp" : String)) == (("timestamp" : String))) = true := by decide
  have h1 : ∀ (secret : String) (params : List (String × String)) (off lm : Int),
      count_key ("timestamp") (sign_params secret params true ("timestamp") ("signature") off lm) =
        count_key ("timestamp") params + 1 := by
    intro secret params off lm
    unfold sign_params
    simp only [if_true]
    rw [count_key_append, count_key_append, count_key_single_ne _ _ _ hsig,
      count_key_single_eq _ _ _ hts]
  refine ⟨h1, ?_⟩
  intro secret params off lm
  unfold sign_request
  by_cases h : params.any (fun kv => kv.1 == ("timestamp")) = true
  · have hc := (count_key_pos_iff_any ("timestamp") params).mp h
    rw [h]
    simp only [Bool.not_true]
    unfold sign_params
    simp only [Bool.false_eq_true, if_false]
    rw [count_key_append, count_key_single_ne _ _ _ hsig, if_neg hc]
    omega
  · have hb : params.any (fun kv => kv.1 == ("timestamp")) = false := by
      rw [Bool.eq_false_iff]
      exact h
    have hc : count_key ("timestamp") params = 0 := by
      by_contra hne
      exact h ((count_key_pos_iff_any ("timestamp") params).mpr hne)
    rw [hb]
    simp only [Bool.not_false]
    rw [h1 secret params off lm, hc]
    simp

/-! ## Claim theorems: credential sensitivity -/

/-- C9, code bug witnessed at a concrete input.  The source classifies a
name as sensitive when it merely CONTAINS `_id` (keys.py line 275), while
the claim — and the function's own docstring, which says "termina en _id"
(ends in `_id`) — require the name to end in it: `user_id_hash` contains
`_id` without ending in it and carries none of the other substrings, yet
the code treats it as sensitive. -/
theorem c9_sensitivity_bug :
    is_sensitive_name ("user_id_hash") = true ∧
    endsW ("user_id_hash") ("_id") = false ∧
    containsSub ("secret") ("user_id_hash") = false ∧
    containsSub ("api_key") ("user_id_hash") = false ∧
    containsSub ("password") ("user_id_hash") = false ∧
    containsSub ("_id") ("user_id_hash") = true := by
  decide

/-! ## Claim theorem: the cipher round trip -/

/-- C5: for every UTF-8 string `s`, with the cipher's key and IV fixed (any
byte-valued key and IV, in particular the host-derived MD5 digests the source
uses), decrypt(encrypt(s)) recovers exactly the UTF-8 bytes of `s`:
base64-decoding succeeds, CBC decryption under the same round keys inverts CBC
encryption, and PKCS#7 unpadding strips exactly the added padding. -/
theorem c5_cipher_round_trip (key iv : List Nat) (s : String)
    (hkey : ∀ x ∈ key, x < 256) (hiv : ∀ x ∈ iv, x < 256) :
    aes_decrypt key iv (aes_encrypt key iv (utf8Bytes s)) = some (utf8Bytes s) :=
  aes_round_trip key iv (utf8Bytes s) hkey hiv (utf8Bytes_lt s)

/-- Witness: concrete 16-byte key and IV and the string "hola": the
hypotheses of the round-trip theorem hold and the round trip returns the
message bytes. -/
theorem c5_cipher_round_trip_witness :
    (∀ x ∈ [0, 1, 2, 3, 4, 5, 6, 7, 8, 9, 10, 11, 12, 13, 14, 15], x < 256) ∧
    aes_decrypt [0, 1, 2, 3, 4, 5, 6, 7, 8, 9, 10, 11, 12, 13, 14, 15]
      [255, 1, 2, 3, 4, 5, 6, 7, 8, 9, 10, 11, 12, 13, 14, 15]
      (aes_encrypt [0, 1, 2, 3, 4, 5, 6, 7, 8, 9, 10, 11, 12, 13, 14, 15]
        [255, 1, 2, 3, 4, 5, 6, 7, 8, 9, 10, 11, 12, 13, 14, 15] (utf8Bytes "hola")) =
      some (utf8Bytes "hola") :=
  ⟨by decide, c5_cipher_round_trip [0, 1, 2, 3, 4, 5, 6, 7, 8, 9, 10, 11, 12, 13, 14, 15]
    [255, 1, 2, 3, 4, 5, 6, 7, 8, 9, 10, 11, 12, 13, 14, 15] "hola" (by decide) (by decide)⟩

end Panzer
